import Mathlib

/-!
Verification development for the `PixelGrid` particle/pixel simulation
(`src/components/PixelGrid.tsx`, with shared helpers in
`src/components/pixelGridCore.ts`).

Shallow embedding conventions:
* JavaScript numbers (doubles / `Float32Array` entries) are modelled as `ℚ`;
  all the verified properties are structural (comparisons, max-blends,
  clamps, exact rational decay factors) and do not depend on binary
  floating-point rounding.
* Per-cell arrays of size `GRID_SIZE²` are modelled as total functions from
  the index type; writes are functional updates.  The source accesses them
  only at in-range indices (guards are reproduced faithfully).
* `Math.random()` outputs, `Math.sin`/`Math.cos` values and non-integral
  `Math.pow` results are abstracted as explicit parameters of the operation
  that consumes them (each such parameter is documented at its definition);
  every theorem quantifies over all values of these parameters.
* Wall-clock timers are not part of the state; a `setTimeout` schedule is
  modelled as the list of (cell, delay, intensity) records it would create.
-/

namespace PixelGrid

/-! ## Constants (source: `PixelGrid.tsx` lines 13-67) -/

/-- `GRID_SIZE = 98` (`PixelGrid.tsx:13`). -/
def GRID_SIZE : ℕ := 98

/-- Total number of grid cells, `GRID_SIZE * GRID_SIZE`. -/
def TOTAL_CELLS : ℕ := GRID_SIZE * GRID_SIZE

/-- `TEXT_ALPHA = 0.85`. -/
def TEXT_ALPHA : ℚ := 17/20

/-- `HIGHLIGHT_ALPHA = 0.96`. -/
def HIGHLIGHT_ALPHA : ℚ := 24/25

/-- `DECAY_FACTOR = 0.965`. -/
def DECAY_FACTOR : ℚ := 193/200

/-- `MIN_VISIBLE_INTENSITY = 0.001`. -/
def MIN_VISIBLE_INTENSITY : ℚ := 1/1000

/-- `MIN_RIPPLE_INTENSITY = 0.06`. -/
def MIN_RIPPLE_INTENSITY : ℚ := 3/50

/-- `RIPPLE_STEP_DELAY_MS = 22`. -/
def RIPPLE_STEP_DELAY_MS : ℕ := 22

/-- `CANVAS_SCALE = 18`. -/
def CANVAS_SCALE : ℕ := 18

/-- `HORIZONTAL_MARGIN_CELLS = 2`. -/
def HORIZONTAL_MARGIN_CELLS : ℤ := 2

/-- `VERTICAL_MARGIN_RATIO = 0.35` (renamed: the original all-caps suffix is
not usable as a Lean name here). -/
def VERTICAL_MARGIN_FRAC : ℚ := 7/20

/-- `MIN_CELLS_RATIO = 0.02` (renamed as above). -/
def MIN_CELLS_FRAC : ℚ := 1/50

/-- `MAX_CELLS_RATIO = 0.2` (renamed as above). -/
def MAX_CELLS_FRAC : ℚ := 1/5

/-- `COVERAGE_THRESHOLD = 0.35`. -/
def COVERAGE_THRESHOLD : ℚ := 7/20

/-- `MAX_ALPHA_MULTIPLIER = 1`. -/
def MAX_ALPHA_MULTIPLIER : ℚ := 1

/-- `SAMPLE_ALPHA_THRESHOLD = 0.5`. -/
def SAMPLE_ALPHA_THRESHOLD : ℚ := 1/2

/-- `GLOBAL_EXPLOSION_GRAVITY = 0.22`. -/
def GLOBAL_EXPLOSION_GRAVITY : ℚ := 11/50

/-- `GLOBAL_EXPLOSION_DRAG = 0.96`. -/
def GLOBAL_EXPLOSION_DRAG : ℚ := 24/25

/-- `GLOBAL_EXPLOSION_INTENSITY_DECAY = 0.92`. -/
def GLOBAL_EXPLOSION_INTENSITY_DECAY : ℚ := 23/25

/-- `TEXT_REVEAL_SMOOTHING = 0.08`. -/
def TEXT_REVEAL_SMOOTHING : ℚ := 2/25

/-- `HIGHLIGHT_BLEND = 0.5`. -/
def HIGHLIGHT_BLEND : ℚ := 1/2

/-- `SCATTER_PARTICLE_DRAG = 0.9`. -/
def SCATTER_PARTICLE_DRAG : ℚ := 9/10

/-- `SCATTER_PARTICLE_INTENSITY_DECAY = 0.98`. -/
def SCATTER_PARTICLE_INTENSITY_DECAY : ℚ := 49/50

/-- `SCATTER_PARTICLE_MIN_INTENSITY = 0.4`. -/
def SCATTER_PARTICLE_MIN_INTENSITY : ℚ := 2/5

/-- `SCATTER_PARTICLE_MAX_AGE_MS = 500`. -/
def SCATTER_PARTICLE_MAX_AGE_MS : ℚ := 500

/-- `SCATTER_PARTICLE_MAX_COUNT = 800`. -/
def SCATTER_PARTICLE_MAX_COUNT : ℕ := 800

/-- `SCATTER_PARTICLE_FRAME_MS = 1000 / 60`. -/
def SCATTER_PARTICLE_FRAME_MS : ℚ := 1000/60

/-- `TRAIL_RELEASE_MAX_AGE_MS = 400`. -/
def TRAIL_RELEASE_MAX_AGE_MS : ℚ := 400

/-- `DEFAULT_COLOR = [118, 99, 255]`. -/
def DEFAULT_COLOR : ℚ × ℚ × ℚ := (118, 99, 255)

/-- `GRADIENT_STOPS` (`PixelGrid.tsx:29-33`). -/
def GRADIENT_STOPS : List (ℚ × (ℚ × ℚ × ℚ)) :=
  [(0, (116, 92, 255)), (11/20, (255, 93, 210)), (1, (108, 201, 255))]

/-! ## Pure helpers (source: `PixelGrid.tsx` lines 71-102, 316-341) -/

/-- `clamp(value, min, max) = Math.min(max, Math.max(min, value))`
(`PixelGrid.tsx:71`). -/
def clamp (value lo hi : ℚ) : ℚ := min hi (max lo value)

/-- `computeSweepReveal(progress, ratio)` (`PixelGrid.tsx:74-84`; the same
function appears verbatim in `pixelGridCore.ts:62-72`). -/
def computeSweepReveal (progress ratio : ℚ) : ℚ :=
  if progress ≤ 0 then 0
  else if 1 ≤ progress then 1
  else
    let tolerance := max TEXT_REVEAL_SMOOTHING 0
    if ratio ≤ progress + tolerance then 1 else 0

/-- `lerp(a, b, t)` (`PixelGrid.tsx:316`). -/
def lerp (a b t : ℚ) : ℚ := a + (b - a) * t

/-- JavaScript `Math.round` on the values appearing here (non-negative):
round half up. -/
def jsRound (q : ℚ) : ℤ := ⌊q + 1/2⌋

/-- `sampleGradient(t)` (`PixelGrid.tsx:318-341`): linear interpolation
across `GRADIENT_STOPS`, written out for the concrete three-stop list. -/
def sampleGradient (t : ℚ) : ℚ × ℚ × ℚ :=
  let clamped := min 1 (max 0 t)
  let interp := fun (s₀ s₁ : ℚ) (c₀ c₁ : ℚ × ℚ × ℚ) =>
    let span := s₁ - s₀
    let localT := (clamped - s₀) / span
    ((jsRound (lerp c₀.1 c₁.1 localT) : ℚ),
     (jsRound (lerp c₀.2.1 c₁.2.1 localT) : ℚ),
     (jsRound (lerp c₀.2.2 c₁.2.2 localT) : ℚ))
  if 0 ≤ clamped ∧ clamped ≤ 11/20 then
    interp 0 (11/20) (116, 92, 255) (255, 93, 210)
  else if 11/20 ≤ clamped ∧ clamped ≤ 1 then
    interp (11/20) 1 (255, 93, 210) (108, 201, 255)
  else (108, 201, 255)

/-! ## Simulation state (refs in `PixelGrid` component, `PixelGrid.tsx:648-692`)

`intensitiesRef`, `intensityAgeRef`, `highlightActiveFlagsRef`,
`highlightActiveRef` and `scatterParticlesRef`, the mutable buffers touched
by the deposit / ignite / decay / render-prune / scatter-particle
operations.  The glyph `mask` (immutable `TextData`) is passed as a
parameter. -/

/-- A scatter particle (`PixelGrid.tsx:127-135`). -/
structure ScatterParticle where
  x : ℚ
  y : ℚ
  vx : ℚ
  vy : ℚ
  intensity : ℚ
  ageMs : ℚ
  lastCellIndex : ℤ
deriving DecidableEq

/-- The mutable per-cell buffers and the scatter-particle pool. -/
structure SimState where
  intensities : ℕ → ℚ
  ages : ℕ → ℚ
  highlightFlags : ℕ → Bool
  highlightActive : List ℕ
  scatterParticles : List ScatterParticle

/-- The buffers at mount time: all zero / empty (`PixelGrid.tsx:648-692`). -/
def initState : SimState :=
  { intensities := fun _ => 0
    ages := fun _ => 0
    highlightFlags := fun _ => false
    highlightActive := []
    scatterParticles := [] }

/-- `depositIntensity(cellIndex, value)` (`PixelGrid.tsx:716-737`): no-op
when the index is out of `[0, N²)` or the value is non-positive; otherwise
max-blends `min(1, value)` into the cell, resets its age, and (when the
clamped value exceeds `MIN_VISIBLE_INTENSITY`, the highlight flag is clear
and the cell is not a glyph cell) sets the flag and appends the cell to the
highlight-active list. -/
def depositIntensity (mask : ℕ → ℚ) (cellIndex : ℤ) (value : ℚ)
    (s : SimState) : SimState :=
  if cellIndex < 0 ∨ (TOTAL_CELLS : ℤ) ≤ cellIndex ∨ value ≤ 0 then s
  else
    let i := cellIndex.toNat
    let clamped := min 1 value
    let newInt := if s.intensities i < clamped then clamped else s.intensities i
    let s1 : SimState :=
      { s with intensities := Function.update s.intensities i newInt
               ages := Function.update s.ages i 0 }
    if MIN_VISIBLE_INTENSITY < clamped ∧ s.highlightFlags i = false ∧ mask i ≤ 0 then
      { s1 with highlightFlags := Function.update s1.highlightFlags i true
                highlightActive := s1.highlightActive ++ [i] }
    else s1

/-- `spawnScatterParticle(cellIndex, baseIntensity)` (`PixelGrid.tsx:1162-1194`).
`dirX`/`dirY` abstract `Math.cos(angle)`/`Math.sin(angle)` for the random
angle, `speed` abstracts the random speed draw; the `Number.isFinite`
guard always holds on `ℚ`.  The pool-capacity check precedes the push and
the deposit, exactly as in the source. -/
def spawnScatterParticle (mask : ℕ → ℚ) (cellIndex : ℤ) (baseIntensity : ℚ)
    (dirX dirY speed : ℚ) (s : SimState) : SimState :=
  if cellIndex < 0 ∨ (TOTAL_CELLS : ℤ) ≤ cellIndex then s
  else
    let cellX := cellIndex % (GRID_SIZE : ℤ)
    let cellY := cellIndex / (GRID_SIZE : ℤ)
    let intensity := clamp baseIntensity 0 1
    if SCATTER_PARTICLE_MAX_COUNT ≤ s.scatterParticles.length then s
    else
      let particle : ScatterParticle :=
        { x := (cellX : ℚ) + 1/2
          y := (cellY : ℚ) + 1/2
          vx := dirX * speed
          vy := dirY * speed
          intensity := intensity
          ageMs := 0
          lastCellIndex := cellIndex }
      depositIntensity mask cellIndex intensity
        { s with scatterParticles := s.scatterParticles ++ [particle] }

/-- `igniteCell(cellX, cellY, intensity)` (`PixelGrid.tsx:1321-1342`):
bounds-guarded; max-blends the clamped intensity and resets the age, but
does NOT touch the highlight flag or list; when the clamped intensity is at
least `0.9` it attempts a particle spawn via
`trySpawnParticleForHighlight` (`PixelGrid.tsx:1196-1212`), whose
wall-clock spawn cooldown is abstracted as the oracle `cooldownOk`. -/
def igniteCell (mask : ℕ → ℚ) (cellX cellY : ℤ) (intensity : ℚ)
    (cooldownOk : Bool) (dirX dirY speed : ℚ) (s : SimState) : SimState :=
  if cellX < 0 ∨ (GRID_SIZE : ℤ) ≤ cellX ∨ cellY < 0 ∨ (GRID_SIZE : ℤ) ≤ cellY then s
  else
    let index := (cellY * (GRID_SIZE : ℤ) + cellX).toNat
    let clamped := min (max intensity 0) 1
    let next := max (s.intensities index) clamped
    let s1 : SimState :=
      { s with intensities := Function.update s.intensities index next
               ages := Function.update s.ages index 0 }
    if (9 : ℚ)/10 ≤ clamped ∧ cooldownOk then
      spawnScatterParticle mask (index : ℤ) clamped dirX dirY speed s1
    else s1

/-- The per-cell body of the decay loop in `decayIntensities`
(`PixelGrid.tsx:1048-1073`): returns the new `(intensity, age)` pair and
whether the highlight flag survives.  `decayStep` abstracts
`Math.pow(DECAY_FACTOR, delta)` (equal to `DECAY_FACTOR` at `delta = 1`)
and `ageStep` abstracts `delta * SCATTER_PARTICLE_FRAME_MS`. -/
def decayCell (decayStep ageStep : ℚ) (value age : ℚ) : ℚ × ℚ × Bool :=
  if value ≤ MIN_VISIBLE_INTENSITY then (0, 0, false)
  else
    let age1 := age + ageStep
    if TRAIL_RELEASE_MAX_AGE_MS ≤ age1 then (0, 0, false)
    else
      let next := value * decayStep
      if next ≤ MIN_VISIBLE_INTENSITY then (0, 0, false)
      else (next, age1, true)

/-- `decayIntensities` (`PixelGrid.tsx:1014-1078`) restricted to the
modelled buffers: the per-cell loop over `intensities`.  The
`suppressIntroGlow` section (lines 1026-1046) reads reveal bookkeeping and
pushes into `pendingTextScatterRef` only — it touches none of the modelled
buffers and is omitted, as is the boolean `hasEnergy` result. -/
def decayIntensities (decayStep ageStep : ℚ) (s : SimState) : SimState :=
  { s with
    intensities := fun i =>
      if i < TOTAL_CELLS then (decayCell decayStep ageStep (s.intensities i) (s.ages i)).1
      else s.intensities i
    ages := fun i =>
      if i < TOTAL_CELLS then (decayCell decayStep ageStep (s.intensities i) (s.ages i)).2.1
      else s.ages i
    highlightFlags := fun i =>
      if i < TOTAL_CELLS then
        s.highlightFlags i && (decayCell decayStep ageStep (s.intensities i) (s.ages i)).2.2
      else s.highlightFlags i }

/-- The highlight-list pruning loop of `draw()` (`PixelGrid.tsx:845-887`).
The source iterates the list from its last index to its first with
swap-removal, so every element is visited exactly once, from the tail of
the list towards its head; the recursion below visits the elements in the
same order and with the same per-element branches (flag clear, minimum
intensity, glyph-cell skip, highlight-alpha test).  Survivors keep their
relative order here whereas the swap-removal leaves them permuted; list
membership — all any theorem below uses — agrees. -/
def drawPrune (mask : ℕ → ℚ) (intensities : ℕ → ℚ) :
    (ℕ → Bool) → List ℕ → (ℕ → Bool) × List ℕ
  | flags, [] => (flags, [])
  | flags, cellIndex :: rest =>
    let res := drawPrune mask intensities flags rest
    let flags1 := res.1
    let kept := res.2
    if flags1 cellIndex = false then (flags1, kept)
    else if intensities cellIndex ≤ MIN_VISIBLE_INTENSITY then
      (Function.update flags1 cellIndex false, kept)
    else if 0 < mask cellIndex then (flags1, cellIndex :: kept)
    else
      let highlightAlpha := min 1 (intensities cellIndex * HIGHLIGHT_ALPHA)
      if highlightAlpha ≤ 0 then (Function.update flags1 cellIndex false, kept)
      else (flags1, cellIndex :: kept)

/-- The state mutation performed by a render pass (`draw()`,
`PixelGrid.tsx:761-888`): when the global explosion is active with
particles the function returns after drawing only explosion particles
(line 783-804) and the highlight list is not pruned; otherwise the
text-cell loop (read-only) runs and then the highlight list is pruned. -/
def drawPass (mask : ℕ → ℚ) (explosionTakeover : Bool) (s : SimState) : SimState :=
  if explosionTakeover then s
  else
    let res := drawPrune mask s.intensities s.highlightFlags s.highlightActive
    { s with highlightFlags := res.1, highlightActive := res.2 }

/-- `CURL_NOISE_EPSILON = 1` (`PixelGrid.tsx:67`). -/
def CURL_NOISE_EPSILON : ℚ := 1

/-- `computeCurlNoise(x, y, time)` (`PixelGrid.tsx:96-102`); `noise`
abstracts the trigonometric `sampleNoise` at the fixed time. -/
def computeCurlNoise (noise : ℚ → ℚ → ℚ) (x y : ℚ) : ℚ × ℚ :=
  let eps := CURL_NOISE_EPSILON
  let dy := noise x (y + eps) - noise x (y - eps)
  let dx := noise (x + eps) y - noise (x - eps) y
  (dy * (1/2), -dx * (1/2))

/-- Integration of one scatter particle, the first half of the loop body of
`updateScatterParticles` (`PixelGrid.tsx:966-980`): drag, position,
intensity decay, age, then the curl-noise velocity perturbation computed at
the already-updated position.  `dragStep` and `decayStep` abstract
`Math.pow(SCATTER_PARTICLE_DRAG, delta)` and
`Math.pow(SCATTER_PARTICLE_INTENSITY_DECAY, delta)`. -/
def updateScatterParticle (delta dragStep decayStep curlAmount : ℚ)
    (noise : ℚ → ℚ → ℚ) (p : ScatterParticle) : ScatterParticle :=
  let vx1 := p.vx * dragStep
  let vy1 := p.vy * dragStep
  let x1 := p.x + vx1 * delta
  let y1 := p.y + vy1 * delta
  let intensity1 := p.intensity * decayStep
  let age1 := p.ageMs + delta * SCATTER_PARTICLE_FRAME_MS
  let v2 :=
    if 0 < curlAmount then
      let curl := computeCurlNoise noise x1 y1
      (vx1 + curl.1 * curlAmount * delta, vy1 + curl.2 * curlAmount * delta)
    else (vx1, vy1)
  { x := x1, y := y1, vx := v2.1, vy := v2.2, intensity := intensity1
    ageMs := age1, lastCellIndex := p.lastCellIndex }

/-- The loop body of `updateScatterParticles` (`PixelGrid.tsx:966-1006`):
integrates one particle, drops it when below the intensity floor / beyond
the age cap / outside the grid, otherwise deposits the head intensity (and,
on a cell change, a trailing deposit at the previous cell) and keeps it.
The boolean `hasEnergy` result of the source loop is omitted. -/
def updateScatterStep (mask : ℕ → ℚ) (delta dragStep decayStep curlAmount : ℚ)
    (noise : ℚ → ℚ → ℚ) (acc : SimState × List ScatterParticle)
    (p : ScatterParticle) : SimState × List ScatterParticle :=
  let st := acc.1
  let next := acc.2
  let q := updateScatterParticle delta dragStep decayStep curlAmount noise p
  if q.intensity ≤ SCATTER_PARTICLE_MIN_INTENSITY ∨
      SCATTER_PARTICLE_MAX_AGE_MS ≤ q.ageMs then (st, next)
  else
    let cellX := ⌊q.x⌋
    let cellY := ⌊q.y⌋
    if cellX < 0 ∨ (GRID_SIZE : ℤ) ≤ cellX ∨ cellY < 0 ∨ (GRID_SIZE : ℤ) ≤ cellY then
      (st, next)
    else
      let cellIndex := cellY * (GRID_SIZE : ℤ) + cellX
      let st1 := depositIntensity mask cellIndex (clamp q.intensity 0 1) st
      let step2 :=
        if q.lastCellIndex ≠ cellIndex then
          (depositIntensity mask q.lastCellIndex (clamp (q.intensity * (9/10)) 0 1) st1,
           { q with lastCellIndex := cellIndex })
        else (st1, q)
      (step2.1, next ++ [step2.2])

/-- `updateScatterParticles(delta)` (`PixelGrid.tsx:954-1012`): folds
`updateScatterStep` over the pool and installs the survivor list. -/
def updateScatterParticles (mask : ℕ → ℚ) (delta dragStep decayStep curlAmount : ℚ)
    (noise : ℚ → ℚ → ℚ) (s : SimState) : SimState :=
  if s.scatterParticles.length = 0 then s
  else
    let res := s.scatterParticles.foldl
      (updateScatterStep mask delta dragStep decayStep curlAmount noise) (s, [])
    { res.1 with scatterParticles := res.2 }

/-- The buffer resets performed by `scatterAll` (`PixelGrid.tsx:1522-1541`)
restricted to the modelled buffers: particle pool emptied, intensities,
ages, highlight flags zeroed, highlight list cleared.  The unmount cleanup
(`PixelGrid.tsx:1656-1684`) performs the same resets on these buffers. -/
def resetBuffers (_s : SimState) : SimState := initState

/-- One operation on the modelled buffers.  Oracles for randomness,
wall-clock cooldowns and non-integral `Math.pow` results are carried as
constructor arguments, so a theorem over all `Op` lists covers every
schedule of the corresponding source calls. -/
inductive Op where
  | deposit (cellIndex : ℤ) (value : ℚ)
  | ignite (cellX cellY : ℤ) (intensity : ℚ) (cooldownOk : Bool) (dirX dirY speed : ℚ)
  | decay (decayStep ageStep : ℚ)
  | draw (explosionTakeover : Bool)
  | spawn (cellIndex : ℤ) (baseIntensity dirX dirY speed : ℚ)
  | update (delta dragStep decayStep curlAmount : ℚ) (noise : ℚ → ℚ → ℚ)
  | scatterReset
  | teardown

/-- Interpretation of one operation. -/
def applyOp (mask : ℕ → ℚ) (s : SimState) : Op → SimState
  | Op.deposit cellIndex value => depositIntensity mask cellIndex value s
  | Op.ignite cellX cellY intensity cooldownOk dirX dirY speed =>
      igniteCell mask cellX cellY intensity cooldownOk dirX dirY speed s
  | Op.decay decayStep ageStep => decayIntensities decayStep ageStep s
  | Op.draw explosionTakeover => drawPass mask explosionTakeover s
  | Op.spawn cellIndex baseIntensity dirX dirY speed =>
      spawnScatterParticle mask cellIndex baseIntensity dirX dirY speed s
  | Op.update delta dragStep decayStep curlAmount noise =>
      updateScatterParticles mask delta dragStep decayStep curlAmount noise s
  | Op.scatterReset => resetBuffers s
  | Op.teardown => resetBuffers s

/-- Interpretation of a list of operations, first to last. -/
def applyOps (mask : ℕ → ℚ) (ops : List Op) (s : SimState) : SimState :=
  ops.foldl (applyOp mask) s

/-! ## Helper lemmas about `depositIntensity` -/

/-- A deposit guard condition spelled out. -/
lemma depositIntensity_of_guard (mask : ℕ → ℚ) (cellIndex : ℤ) (value : ℚ)
    (s : SimState) (h : cellIndex < 0 ∨ (TOTAL_CELLS : ℤ) ≤ cellIndex ∨ value ≤ 0) :
    depositIntensity mask cellIndex value s = s := by
  unfold depositIntensity
  rw [if_pos h]

/-- In-range positive deposits max-blend the clamped value into the cell. -/
lemma depositIntensity_intensities (mask : ℕ → ℚ) (cellIndex : ℤ) (value : ℚ)
    (s : SimState) (h0 : 0 ≤ cellIndex) (h1 : cellIndex < (TOTAL_CELLS : ℤ))
    (h2 : 0 < value) :
    (depositIntensity mask cellIndex value s).intensities =
      Function.update s.intensities cellIndex.toNat
        (max (s.intensities cellIndex.toNat) (min 1 value)) := by
  unfold depositIntensity
  rw [if_neg (by push_neg; exact ⟨h0, h1, h2⟩)]
  dsimp only
  split_ifs <;> dsimp only <;> rw [max_def_lt] <;>
    first
      | rw [if_pos ‹s.intensities cellIndex.toNat < min 1 value›]
      | rw [if_neg ‹¬ s.intensities cellIndex.toNat < min 1 value›]

/-- In-range positive deposits reset the cell's age. -/
lemma depositIntensity_ages (mask : ℕ → ℚ) (cellIndex : ℤ) (value : ℚ)
    (s : SimState) (h0 : 0 ≤ cellIndex) (h1 : cellIndex < (TOTAL_CELLS : ℤ))
    (h2 : 0 < value) :
    (depositIntensity mask cellIndex value s).ages =
      Function.update s.ages cellIndex.toNat 0 := by
  unfold depositIntensity
  rw [if_neg (by push_neg; exact ⟨h0, h1, h2⟩)]
  dsimp only
  split_ifs <;> rfl

/-! ## C6 — sweep-reveal weight -/

/-- C6 counterexample: at `progress = 0`, `ratio = 0` (both inside `[0,1]`)
the threshold `progress + TEXT_REVEAL_SMOOTHING ≥ ratio` is met, yet
`computeSweepReveal` returns `0`, not `1`: the claimed characterisation
fails at the lower progress boundary. -/
theorem computeSweepReveal_claim_cex :
    (0 : ℚ) ≤ 0 ∧ (0 : ℚ) ≤ 1 ∧ (0 : ℚ) ≤ (0 : ℚ) + TEXT_REVEAL_SMOOTHING ∧
    computeSweepReveal 0 0 = 0 ∧ ¬ computeSweepReveal 0 0 = 1 := by
  refine ⟨le_refl _, by norm_num, ?_, ?_, ?_⟩
  · norm_num [TEXT_REVEAL_SMOOTHING]
  · simp [computeSweepReveal]
  · simp [computeSweepReveal]

/-- C6 amended: the sweep-reveal weight is always binary (`0` or `1`); it is
`0` whenever `progress ≤ 0` and `1` whenever `progress ≥ 1`, and for
`progress` strictly between `0` and `1` it is `1` exactly when
`ratio ≤ progress + TEXT_REVEAL_SMOOTHING` and `0` otherwise. -/
theorem computeSweepReveal_spec :
    (∀ p r : ℚ, computeSweepReveal p r = 0 ∨ computeSweepReveal p r = 1) ∧
    (∀ p r : ℚ, p ≤ 0 → computeSweepReveal p r = 0) ∧
    (∀ p r : ℚ, 1 ≤ p → computeSweepReveal p r = 1) ∧
    (∀ p r : ℚ, 0 < p → p < 1 →
      computeSweepReveal p r =
        if r ≤ p + TEXT_REVEAL_SMOOTHING then 1 else 0) := by
  have hmax : max TEXT_REVEAL_SMOOTHING 0 = TEXT_REVEAL_SMOOTHING := by
    norm_num [TEXT_REVEAL_SMOOTHING]
  refine ⟨?_, ?_, ?_, ?_⟩
  · intro p r
    unfold computeSweepReveal
    dsimp only
    split_ifs <;> simp
  · intro p r hp
    unfold computeSweepReveal
    rw [if_pos hp]
  · intro p r hp
    unfold computeSweepReveal
    rw [if_neg (by linarith), if_pos hp]
  · intro p r hp0 hp1
    unfold computeSweepReveal
    rw [if_neg (by linarith), if_neg (by linarith)]
    dsimp only
    by_cases hr : r ≤ p + TEXT_REVEAL_SMOOTHING
    · rw [if_pos (by rw [hmax]; exact hr), if_pos hr]
    · rw [if_neg (by rw [hmax]; exact hr), if_neg hr]

/-- Witness for `computeSweepReveal_spec` at concrete inputs: at
`progress = 1/2` a cell with `ratio = 1/4` is on, a cell with
`ratio = 9/10` is off. -/
theorem computeSweepReveal_spec_witness :
    computeSweepReveal (1/2) (1/4) = 1 ∧ computeSweepReveal (1/2) (9/10) = 0 := by
  have h := computeSweepReveal_spec.2.2.2
  constructor
  · rw [h (1/2) (1/4) (by norm_num) (by norm_num)]
    norm_num [TEXT_REVEAL_SMOOTHING]
  · rw [h (1/2) (9/10) (by norm_num) (by norm_num)]
    norm_num [TEXT_REVEAL_SMOOTHING]

/-! ## C9 — deposit is a max-blend -/

/-- C9: for an in-range cell and positive values, depositing `a` then `b`
leaves the cell's intensity at `max(previous, min(1,a), min(1,b))`; the
whole intensity array is the same in either deposit order; and repeating
the same deposit leaves the intensity array unchanged. -/
theorem depositIntensity_max_blend (mask : ℕ → ℚ) (s : SimState)
    (i : ℤ) (a b : ℚ) (h0 : 0 ≤ i) (h1 : i < (TOTAL_CELLS : ℤ))
    (ha : 0 < a) (hb : 0 < b) :
    ((depositIntensity mask i b (depositIntensity mask i a s)).intensities i.toNat
        = max (s.intensities i.toNat) (max (min 1 a) (min 1 b))) ∧
    ((depositIntensity mask i b (depositIntensity mask i a s)).intensities
        = (depositIntensity mask i a (depositIntensity mask i b s)).intensities) ∧
    ((depositIntensity mask i a (depositIntensity mask i a s)).intensities
        = (depositIntensity mask i a s).intensities) := by
  have key : ∀ (t : SimState) (v w : ℚ), 0 < v → 0 < w →
      (depositIntensity mask i w (depositIntensity mask i v t)).intensities =
        Function.update t.intensities i.toNat
          (max (t.intensities i.toNat) (max (min 1 v) (min 1 w))) := by
    intro t v w hv hw
    rw [depositIntensity_intensities mask i w _ h0 h1 hw,
        depositIntensity_intensities mask i v _ h0 h1 hv]
    funext j
    by_cases hj : j = i.toNat
    · subst hj
      simp [Function.update_same, max_assoc]
    · simp [Function.update_noteq hj]
  refine ⟨?_, ?_, ?_⟩
  · rw [key s a b ha hb, Function.update_same]
  · rw [key s a b ha hb, key s b a hb ha, max_comm (min 1 a) (min 1 b)]
  · rw [key s a a ha ha, depositIntensity_intensities mask i a _ h0 h1 ha]
    funext j
    by_cases hj : j = i.toNat
    · subst hj
      simp [Function.update_same, max_self, max_assoc]
    · simp [Function.update_noteq hj]

/-- Witness for `depositIntensity_max_blend`: cell `7`, values `1/2`, `3/4`
on the mount state. -/
theorem depositIntensity_max_blend_witness :
    ((depositIntensity (fun _ => 0) 7 (3/4)
        (depositIntensity (fun _ => 0) 7 (1/2) initState)).intensities 7
      = max ((initState).intensities 7) (max (min 1 (1/2)) (min 1 (3/4)))) ∧
    ((depositIntensity (fun _ => 0) 7 (3/4)
        (depositIntensity (fun _ => 0) 7 (1/2) initState)).intensities
      = (depositIntensity (fun _ => 0) 7 (1/2)
          (depositIntensity (fun _ => 0) 7 (3/4) initState)).intensities) ∧
    ((depositIntensity (fun _ => 0) 7 (1/2)
        (depositIntensity (fun _ => 0) 7 (1/2) initState)).intensities
      = (depositIntensity (fun _ => 0) 7 (1/2) initState).intensities) := by
  have h := depositIntensity_max_blend (fun _ => 0) initState 7 (1/2) (3/4)
    (by norm_num) (by norm_num [TOTAL_CELLS, GRID_SIZE]) (by norm_num) (by norm_num)
  exact ⟨h.1, h.2.1, h.2.2⟩

/-! ## C10 — out-of-range / non-positive deposits are complete no-ops -/

/-- C10: a deposit with an index outside `[0, N²)` or a non-positive value
leaves the entire state — intensities, ages, highlight flags,
highlight-active list, particle pool — unchanged. -/
theorem depositIntensity_noop (mask : ℕ → ℚ) (s : SimState)
    (cellIndex : ℤ) (value : ℚ)
    (h : cellIndex < 0 ∨ (TOTAL_CELLS : ℤ) ≤ cellIndex ∨ value ≤ 0) :
    depositIntensity mask cellIndex value s = s :=
  depositIntensity_of_guard mask cellIndex value s h

/-- Witness for `depositIntensity_noop`: a negative index, an index past the
last cell, and a zero-valued deposit, each on the mount state. -/
theorem depositIntensity_noop_witness :
    depositIntensity (fun _ => 0) (-1) 1 initState = initState ∧
    depositIntensity (fun _ => 0) 9604 1 initState = initState ∧
    depositIntensity (fun _ => 0) 3 0 initState = initState := by
  refine ⟨?_, ?_, ?_⟩
  · exact depositIntensity_noop _ _ _ _ (Or.inl (by norm_num))
  · exact depositIntensity_noop _ _ _ _
      (Or.inr (Or.inl (by norm_num [TOTAL_CELLS, GRID_SIZE])))
  · exact depositIntensity_noop _ _ _ _ (Or.inr (Or.inr (le_refl 0)))

/-! ## C2 — bounded decay of a full deposit -/

/-- The `(intensity, age)` trajectory of a single cell under the decay
loop. -/
def decayCellPair (decayStep ageStep : ℚ) (p : ℚ × ℚ) : ℚ × ℚ :=
  ((decayCell decayStep ageStep p.1 p.2).1, (decayCell decayStep ageStep p.1 p.2).2.1)

/-- The field decay acts pointwise through `decayCellPair` on in-range
cells. -/
lemma decayIntensities_apply (decayStep ageStep : ℚ) (s : SimState)
    (n : ℕ) (hn : n < TOTAL_CELLS) :
    (decayIntensities decayStep ageStep s).intensities n =
      (decayCellPair decayStep ageStep (s.intensities n, s.ages n)).1 ∧
    (decayIntensities decayStep ageStep s).ages n =
      (decayCellPair decayStep ageStep (s.intensities n, s.ages n)).2 := by
  constructor <;> simp [decayIntensities, decayCellPair, if_pos hn]

/-- Iterated field decay follows the single-cell trajectory. -/
lemma decayIntensities_iterate_apply (decayStep ageStep : ℚ) (s : SimState)
    (n : ℕ) (hn : n < TOTAL_CELLS) (k : ℕ) :
    ((decayIntensities decayStep ageStep)^[k] s).intensities n =
      ((decayCellPair decayStep ageStep)^[k] (s.intensities n, s.ages n)).1 ∧
    ((decayIntensities decayStep ageStep)^[k] s).ages n =
      ((decayCellPair decayStep ageStep)^[k] (s.intensities n, s.ages n)).2 := by
  induction k generalizing s with
  | zero => exact ⟨rfl, rfl⟩
  | succ k ih =>
    rw [Function.iterate_succ_apply, Function.iterate_succ_apply]
    have h0 := decayIntensities_apply decayStep ageStep s n hn
    have h1 := ih (decayIntensities decayStep ageStep s)
    rw [h1.1, h1.2, h0.1, h0.2]
    exact ⟨rfl, rfl⟩

/-- One decay step keeps the cell intensity non-negative (for a
non-negative decay factor). -/
lemma decayCellPair_nonneg (decayStep ageStep : ℚ) (hd : 0 ≤ decayStep)
    (p : ℚ × ℚ) (h : 0 ≤ p.1) : 0 ≤ (decayCellPair decayStep ageStep p).1 := by
  unfold decayCellPair decayCell
  dsimp only
  split_ifs <;> simp
  exact mul_nonneg h hd

/-- Closed form of the first 23 decay frames of a full deposit: pure
exponential decay with a linearly growing age. -/
lemma decayCellPair_traj (k : ℕ) (hk : k ≤ 23) :
    (decayCellPair DECAY_FACTOR SCATTER_PARTICLE_FRAME_MS)^[k] (1, 0) =
      (DECAY_FACTOR ^ k, (k : ℚ) * SCATTER_PARTICLE_FRAME_MS) := by
  induction k with
  | zero => norm_num
  | succ k ih =>
    have hk23 : k ≤ 23 := by omega
    have hk22 : k + 1 ≤ 23 := hk
    rw [Function.iterate_succ_apply', ih hk23]
    have hmono : DECAY_FACTOR ^ 23 ≤ DECAY_FACTOR ^ k :=
      pow_le_pow_of_le_one (by norm_num [DECAY_FACTOR]) (by norm_num [DECAY_FACTOR]) hk23
    have hmono1 : DECAY_FACTOR ^ 23 ≤ DECAY_FACTOR ^ (k + 1) :=
      pow_le_pow_of_le_one (by norm_num [DECAY_FACTOR]) (by norm_num [DECAY_FACTOR]) hk22
    have h23 : MIN_VISIBLE_INTENSITY < DECAY_FACTOR ^ 23 := by
      norm_num [MIN_VISIBLE_INTENSITY, DECAY_FACTOR]
    have hage : ¬ TRAIL_RELEASE_MAX_AGE_MS ≤
        (k : ℚ) * SCATTER_PARTICLE_FRAME_MS + SCATTER_PARTICLE_FRAME_MS := by
      have hc : (k : ℚ) ≤ 22 := by exact_mod_cast (show k ≤ 22 by omega)
      simp only [TRAIL_RELEASE_MAX_AGE_MS, SCATTER_PARTICLE_FRAME_MS, not_le]
      linarith [hc]
    unfold decayCellPair decayCell
    dsimp only
    rw [if_neg (not_le.mpr (lt_of_lt_of_le h23 hmono)), if_neg hage,
      if_neg (not_le.mpr (by
        calc MIN_VISIBLE_INTENSITY < DECAY_FACTOR ^ 23 := h23
          _ ≤ DECAY_FACTOR ^ (k + 1) := hmono1
          _ = DECAY_FACTOR ^ k * DECAY_FACTOR := by rw [pow_succ]))]
    dsimp only
    rw [Prod.mk.injEq]
    exact ⟨(pow_succ _ _).symm, by push_cast; ring⟩

/-- After 24 frames at `delta = 1`, the age-based forced release zeroes a
cell deposited at full intensity (its age reaches
`24 * SCATTER_PARTICLE_FRAME_MS = 400 = TRAIL_RELEASE_MAX_AGE_MS`). -/
lemma decayCellPair_iterate_24 :
    (decayCellPair DECAY_FACTOR SCATTER_PARTICLE_FRAME_MS)^[24] (1, 0) = (0, 0) := by
  have h23 := decayCellPair_traj 23 (le_refl _)
  rw [show (24 : ℕ) = 23 + 1 by norm_num, Function.iterate_succ_apply', h23]
  unfold decayCellPair decayCell
  dsimp only
  rw [if_neg (not_le.mpr (by norm_num [MIN_VISIBLE_INTENSITY, DECAY_FACTOR])),
    if_pos (by norm_num [TRAIL_RELEASE_MAX_AGE_MS, SCATTER_PARTICLE_FRAME_MS])]

/-- The zero cell state is a fixed point of the decay step. -/
lemma decayCellPair_zero_fixed (k : ℕ) :
    (decayCellPair DECAY_FACTOR SCATTER_PARTICLE_FRAME_MS)^[k] (0, 0) = (0, 0) := by
  induction k with
  | zero => rfl
  | succ k ih => rw [Function.iterate_succ_apply, show
      decayCellPair DECAY_FACTOR SCATTER_PARTICLE_FRAME_MS (0, 0) = (0, 0) by
        norm_num [decayCellPair, decayCell, MIN_VISIBLE_INTENSITY], ih]

/-- C2: a cell deposited at intensity `1.0` and then decayed with
`delta = 1` (decay step `DECAY_FACTOR`, age step
`SCATTER_PARTICLE_FRAME_MS`) and no further deposits never becomes
negative, and is forced to exactly `0` within
`194 = ceil(log MIN_VISIBLE_INTENSITY / log DECAY_FACTOR)` frames — the
first two conjuncts pin that ceiling value down:
`DECAY_FACTOR^194 < MIN_VISIBLE_INTENSITY ≤ DECAY_FACTOR^193`.  (The
age-based release actually zeroes the cell already at frame 24.) -/
theorem decay_full_deposit_bounded (mask : ℕ → ℚ) (s : SimState) (i : ℤ)
    (h0 : 0 ≤ i) (h1 : i < (TOTAL_CELLS : ℤ))
    (hle : s.intensities i.toNat ≤ 1) :
    (DECAY_FACTOR ^ (194 : ℕ) < MIN_VISIBLE_INTENSITY ∧
      MIN_VISIBLE_INTENSITY ≤ DECAY_FACTOR ^ (193 : ℕ)) ∧
    (∀ k : ℕ, 0 ≤ ((decayIntensities DECAY_FACTOR SCATTER_PARTICLE_FRAME_MS)^[k]
        (depositIntensity mask i 1 s)).intensities i.toNat) ∧
    ((decayIntensities DECAY_FACTOR SCATTER_PARTICLE_FRAME_MS)^[194]
        (depositIntensity mask i 1 s)).intensities i.toNat = 0 := by
  have hn : i.toNat < TOTAL_CELLS := by omega
  have hint : (depositIntensity mask i 1 s).intensities i.toNat = 1 := by
    rw [depositIntensity_intensities mask i 1 s h0 h1 (by norm_num),
      Function.update_same, min_self, max_eq_right hle]
  have hage : (depositIntensity mask i 1 s).ages i.toNat = 0 := by
    rw [depositIntensity_ages mask i 1 s h0 h1 (by norm_num)]
    exact Function.update_same _ _ _
  refine ⟨⟨by norm_num [DECAY_FACTOR, MIN_VISIBLE_INTENSITY],
    by norm_num [DECAY_FACTOR, MIN_VISIBLE_INTENSITY]⟩, ?_, ?_⟩
  · intro k
    rw [(decayIntensities_iterate_apply _ _ _ _ hn k).1, hint, hage]
    have : ∀ m : ℕ, ∀ p : ℚ × ℚ, 0 ≤ p.1 →
        0 ≤ ((decayCellPair DECAY_FACTOR SCATTER_PARTICLE_FRAME_MS)^[m] p).1 := by
      intro m
      induction m with
      | zero => intro p hp; simpa using hp
      | succ m ih =>
        intro p hp
        rw [Function.iterate_succ_apply]
        exact ih _ (decayCellPair_nonneg _ _ (by norm_num [DECAY_FACTOR]) p hp)
    exact this k (1, 0) (by norm_num)
  · rw [(decayIntensities_iterate_apply _ _ _ _ hn 194).1, hint, hage]
    have h194 : (194 : ℕ) = 170 + 24 := by norm_num
    rw [h194, Function.iterate_add_apply, decayCellPair_iterate_24,
      decayCellPair_zero_fixed]

/-- Witness for `decay_full_deposit_bounded`: cell `0` of the mount state;
non-negativity sampled at frame `5`, forced zero at frame `194`. -/
theorem decay_full_deposit_bounded_witness :
    0 ≤ ((decayIntensities DECAY_FACTOR SCATTER_PARTICLE_FRAME_MS)^[5]
        (depositIntensity (fun _ => 0) 0 1 initState)).intensities (0 : ℤ).toNat ∧
    ((decayIntensities DECAY_FACTOR SCATTER_PARTICLE_FRAME_MS)^[194]
        (depositIntensity (fun _ => 0) 0 1 initState)).intensities (0 : ℤ).toNat = 0 := by
  have h := decay_full_deposit_bounded (fun _ => 0) initState 0 (le_refl 0)
    (by norm_num [TOTAL_CELLS, GRID_SIZE]) (by norm_num [initState])
  exact ⟨h.2.1 5, h.2.2⟩

/-! ## C5 — the scatter-particle pool is capped -/

/-- Deposits never touch the particle pool. -/
lemma depositIntensity_scatterParticles (mask : ℕ → ℚ) (cellIndex : ℤ)
    (value : ℚ) (s : SimState) :
    (depositIntensity mask cellIndex value s).scatterParticles = s.scatterParticles := by
  unfold depositIntensity
  dsimp only
  split_ifs <;> rfl

/-- A spawn preserves the pool cap (the capacity check precedes the
push). -/
lemma spawnScatterParticle_cap (mask : ℕ → ℚ) (cellIndex : ℤ)
    (v dirX dirY speed : ℚ) (s : SimState)
    (h : s.scatterParticles.length ≤ SCATTER_PARTICLE_MAX_COUNT) :
    (spawnScatterParticle mask cellIndex v dirX dirY speed s).scatterParticles.length
      ≤ SCATTER_PARTICLE_MAX_COUNT := by
  unfold spawnScatterParticle
  dsimp only
  split_ifs with hg hc
  · exact h
  · exact h
  · rw [depositIntensity_scatterParticles]
    simp only [List.length_append, List.length_cons, List.length_nil]
    omega

/-- One update-loop step grows the survivor list by at most one. -/
lemma updateScatterStep_snd_length (mask : ℕ → ℚ)
    (delta dragStep decayStep curlAmount : ℚ) (noise : ℚ → ℚ → ℚ)
    (acc : SimState × List ScatterParticle) (p : ScatterParticle) :
    (updateScatterStep mask delta dragStep decayStep curlAmount noise acc p).2.length
      ≤ acc.2.length + 1 := by
  unfold updateScatterStep
  dsimp only
  split_ifs <;> simp

/-- The update loop's survivor list is no longer than the input pool. -/
lemma updateScatterParticles_cap (mask : ℕ → ℚ)
    (delta dragStep decayStep curlAmount : ℚ) (noise : ℚ → ℚ → ℚ) (s : SimState) :
    (updateScatterParticles mask delta dragStep decayStep curlAmount noise
        s).scatterParticles.length ≤ s.scatterParticles.length := by
  unfold updateScatterParticles
  dsimp only
  split_ifs with h
  · exact le_refl _
  · have key : ∀ (l : List ScatterParticle) (acc : SimState × List ScatterParticle),
        ((l.foldl (updateScatterStep mask delta dragStep decayStep curlAmount noise)
          acc).2).length ≤ acc.2.length + l.length := by
      intro l
      induction l with
      | nil => intro acc; simp
      | cons p rest ih =>
        intro acc
        rw [List.foldl_cons]
        calc ((rest.foldl _ (updateScatterStep mask delta dragStep decayStep
                curlAmount noise acc p)).2).length
            ≤ (updateScatterStep mask delta dragStep decayStep curlAmount noise
                acc p).2.length + rest.length := ih _
          _ ≤ acc.2.length + 1 + rest.length := by
              have := updateScatterStep_snd_length mask delta dragStep decayStep
                curlAmount noise acc p
              omega
          _ = acc.2.length + (rest.length + 1) := by omega
          _ = acc.2.length + (p :: rest).length := by simp
    have := key s.scatterParticles (s, [])
    simpa using this

/-- Every operation preserves the pool cap. -/
lemma applyOp_cap (mask : ℕ → ℚ) (s : SimState) (op : Op)
    (h : s.scatterParticles.length ≤ SCATTER_PARTICLE_MAX_COUNT) :
    (applyOp mask s op).scatterParticles.length ≤ SCATTER_PARTICLE_MAX_COUNT := by
  cases op with
  | deposit cellIndex value =>
    simpa [applyOp, depositIntensity_scatterParticles] using h
  | ignite cellX cellY intensity cooldownOk dirX dirY speed =>
    simp only [applyOp]
    unfold igniteCell
    dsimp only
    split_ifs
    · exact h
    · exact spawnScatterParticle_cap _ _ _ _ _ _ _ h
    · exact h
  | decay decayStep ageStep => exact h
  | draw explosionTakeover =>
    simp only [applyOp]
    unfold drawPass
    dsimp only
    split_ifs <;> exact h
  | spawn cellIndex baseIntensity dirX dirY speed =>
    exact spawnScatterParticle_cap _ _ _ _ _ _ _ h
  | update delta dragStep decayStep curlAmount noise =>
    exact le_trans (updateScatterParticles_cap _ _ _ _ _ _ _) h
  | scatterReset => simp [applyOp, resetBuffers, initState]
  | teardown => simp [applyOp, resetBuffers, initState]

/-- C5: from the mount state, no sequence of operations (spawns, ignites,
per-frame particle updates, scatter-all resets, teardowns, deposits,
decay and render passes) ever makes the pool exceed
`SCATTER_PARTICLE_MAX_COUNT = 800`; and on a state already at (or above)
capacity a spawn is a complete no-op. -/
theorem scatterParticles_capped :
    (∀ (mask : ℕ → ℚ) (ops : List Op),
      (applyOps mask ops initState).scatterParticles.length
        ≤ SCATTER_PARTICLE_MAX_COUNT) ∧
    (∀ (mask : ℕ → ℚ) (s : SimState) (cellIndex : ℤ) (v dirX dirY speed : ℚ),
      SCATTER_PARTICLE_MAX_COUNT ≤ s.scatterParticles.length →
      spawnScatterParticle mask cellIndex v dirX dirY speed s = s) := by
  constructor
  · intro mask ops
    have key : ∀ (l : List Op) (s : SimState),
        s.scatterParticles.length ≤ SCATTER_PARTICLE_MAX_COUNT →
        (applyOps mask l s).scatterParticles.length ≤ SCATTER_PARTICLE_MAX_COUNT := by
      intro l
      induction l with
      | nil => intro s h; exact h
      | cons op rest ih =>
        intro s h
        exact ih _ (applyOp_cap mask s op h)
    exact key ops initState (by simp [initState])
  · intro mask s cellIndex v dirX dirY speed h
    unfold spawnScatterParticle
    dsimp only
    by_cases hg : cellIndex < 0 ∨ (TOTAL_CELLS : ℤ) ≤ cellIndex
    · rw [if_pos hg]
    · rw [if_neg hg, if_pos h]

/-- Witness for `scatterParticles_capped`: a short concrete schedule, and a
concrete full pool (800 copies of a particle) on which a spawn is the
identity. -/
theorem scatterParticles_capped_witness :
    (applyOps (fun _ => 0) [Op.spawn 0 1 1 0 (1/4), Op.spawn 1 1 0 1 (1/4)]
        initState).scatterParticles.length ≤ SCATTER_PARTICLE_MAX_COUNT ∧
    spawnScatterParticle (fun _ => 0) 0 1 1 0 (1/4)
        { initState with scatterParticles :=
            List.replicate 800 ⟨0, 0, 0, 0, 0, 0, 0⟩ }
      = { initState with scatterParticles :=
            List.replicate 800 ⟨0, 0, 0, 0, 0, 0, 0⟩ } := by
  constructor
  · exact scatterParticles_capped.1 (fun _ => 0) _
  · exact scatterParticles_capped.2 (fun _ => 0) _ 0 1 1 0 (1/4)
      (by rw [List.length_replicate]; norm_num [SCATTER_PARTICLE_MAX_COUNT])

/-! ## C1 — highlight bookkeeping -/

/-- The condition under which the render-pass pruning loop clears a cell's
highlight flag and drops it from the list (`PixelGrid.tsx:855-873`). -/
def pruneClear (mask intensities : ℕ → ℚ) (j : ℕ) : Prop :=
  intensities j ≤ MIN_VISIBLE_INTENSITY ∨
    (¬ 0 < mask j ∧ min 1 (intensities j * HIGHLIGHT_ALPHA) ≤ 0)

/-- Full characterisation of the pruning loop: a flag survives iff it was
set and the cell is not a listed cell satisfying the clearing condition; a
cell is in the pruned list iff it was listed, flagged, and not cleared. -/
lemma drawPrune_spec (mask intensities : ℕ → ℚ) :
    ∀ (l : List ℕ) (flags : ℕ → Bool) (j : ℕ),
      ((drawPrune mask intensities flags l).1 j = true ↔
        (flags j = true ∧ ¬(j ∈ l ∧ pruneClear mask intensities j))) ∧
      (j ∈ (drawPrune mask intensities flags l).2 ↔
        (j ∈ l ∧ flags j = true ∧ ¬ pruneClear mask intensities j)) := by
  intro l
  induction l with
  | nil =>
    intro flags j
    constructor
    · simp [drawPrune]
    · simp [drawPrune]
  | cons c rest ih =>
    intro flags j
    have ihj := ih flags j
    have ihc := ih flags c
    simp only [drawPrune]
    by_cases h1 : (drawPrune mask intensities flags rest).1 c = false
    · rw [if_pos h1]
      have hcfalse : ¬ (flags c = true ∧ ¬ pruneClear mask intensities c) := by
        intro hcon
        have : (drawPrune mask intensities flags rest).1 c = true :=
          ihc.1.mpr ⟨hcon.1, fun hmem => hcon.2 hmem.2⟩
        rw [h1] at this
        exact Bool.false_ne_true this
      by_cases hj : j = c
      · subst hj
        constructor
        · constructor
          · intro h
            rw [h1] at h
            exact absurd h Bool.false_ne_true
          · rintro ⟨hf, hncl⟩
            exact absurd ⟨hf, fun hcl => hncl ⟨List.mem_cons_self _ _, hcl⟩⟩ hcfalse
        · rw [ihj.2]
          constructor
          · rintro ⟨hm, hf, hncl⟩
            exact ⟨List.mem_cons_of_mem _ hm, hf, hncl⟩
          · rintro ⟨hm, hf, hncl⟩
            exact absurd ⟨hf, hncl⟩ hcfalse
      · constructor
        · rw [ihj.1]
          constructor
          · rintro ⟨hf, hncl⟩
            refine ⟨hf, fun hcl => hncl ⟨?_, hcl.2⟩⟩
            rcases List.mem_cons.mp hcl.1 with h | h
            · exact absurd h hj
            · exact h
          · rintro ⟨hf, hncl⟩
            exact ⟨hf, fun hcl => hncl ⟨List.mem_cons_of_mem _ hcl.1, hcl.2⟩⟩
        · rw [ihj.2]
          constructor
          · rintro ⟨hm, hf, hncl⟩
            exact ⟨List.mem_cons_of_mem _ hm, hf, hncl⟩
          · rintro ⟨hm, hf, hncl⟩
            refine ⟨?_, hf, hncl⟩
            rcases List.mem_cons.mp hm with h | h
            · exact absurd h hj
            · exact h
    · rw [if_neg h1]
      have hctrue : (drawPrune mask intensities flags rest).1 c = true :=
        eq_true_of_ne_false h1
      have hcflags : flags c = true := (ihc.1.mp hctrue).1
      have hcnotrest : ¬(c ∈ rest ∧ pruneClear mask intensities c) :=
        (ihc.1.mp hctrue).2
      by_cases h2 : intensities c ≤ MIN_VISIBLE_INTENSITY
      · -- cleared: below minimum visible intensity
        rw [if_pos h2]
        have hclc : pruneClear mask intensities c := Or.inl h2
        by_cases hj : j = c
        · subst hj
          constructor
          · simp only [Function.update_same]
            constructor
            · intro h; exact absurd h Bool.false_ne_true
            · rintro ⟨hf, hncl⟩
              exact absurd (fun hcl => hncl ⟨List.mem_cons_self _ _, hclc⟩) (by
                intro hx; exact hx hclc)
          · rw [ihj.2]
            constructor
            · rintro ⟨hm, hf, hncl⟩
              exact absurd hclc hncl
            · rintro ⟨hm, hf, hncl⟩
              exact absurd hclc hncl
        · constructor
          · simp only [Function.update_noteq hj]
            rw [ihj.1]
            constructor
            · rintro ⟨hf, hncl⟩
              refine ⟨hf, fun hcl => hncl ⟨?_, hcl.2⟩⟩
              rcases List.mem_cons.mp hcl.1 with h | h
              · exact absurd h hj
              · exact h
            · rintro ⟨hf, hncl⟩
              exact ⟨hf, fun hcl => hncl ⟨List.mem_cons_of_mem _ hcl.1, hcl.2⟩⟩
          · rw [ihj.2]
            constructor
            · rintro ⟨hm, hf, hncl⟩
              exact ⟨List.mem_cons_of_mem _ hm, hf, hncl⟩
            · rintro ⟨hm, hf, hncl⟩
              refine ⟨?_, hf, hncl⟩
              rcases List.mem_cons.mp hm with h | h
              · exact absurd h hj
              · exact h
      · rw [if_neg h2]
        by_cases h3 : 0 < mask c
        · -- glyph cell in the list: kept with the flag intact
          rw [if_pos h3]
          have hnclc : ¬ pruneClear mask intensities c := by
            rintro (hcl | hcl)
            · exact h2 hcl
            · exact hcl.1 h3
          by_cases hj : j = c
          · subst hj
            constructor
            · rw [ihj.1]
              constructor
              · rintro ⟨hf, hncl⟩
                exact ⟨hf, fun hcl => hnclc hcl.2⟩
              · rintro ⟨hf, hncl⟩
                exact ⟨hf, fun hcl => hnclc hcl.2⟩
            · constructor
              · intro _; exact ⟨List.mem_cons_self _ _, hcflags, hnclc⟩
              · intro _; exact List.mem_cons_self _ _
          · constructor
            · rw [ihj.1]
              constructor
              · rintro ⟨hf, hncl⟩
                refine ⟨hf, fun hcl => hncl ⟨?_, hcl.2⟩⟩
                rcases List.mem_cons.mp hcl.1 with h | h
                · exact absurd h hj
                · exact h
              · rintro ⟨hf, hncl⟩
                exact ⟨hf, fun hcl => hncl ⟨List.mem_cons_of_mem _ hcl.1, hcl.2⟩⟩
            · constructor
              · intro hm
                rcases List.mem_cons.mp hm with h | h
                · exact absurd h hj
                · exact ⟨List.mem_cons_of_mem _ ((ihj.2.mp h).1), (ihj.2.mp h).2⟩
              · rintro ⟨hm, hf, hncl⟩
                refine List.mem_cons_of_mem _ (ihj.2.mpr ⟨?_, hf, hncl⟩)
                rcases List.mem_cons.mp hm with h | h
                · exact absurd h hj
                · exact h
        · rw [if_neg h3]
          by_cases h4 : min 1 (intensities c * HIGHLIGHT_ALPHA) ≤ 0
          · -- cleared: zero highlight alpha
            rw [if_pos h4]
            have hclc : pruneClear mask intensities c := Or.inr ⟨h3, h4⟩
            by_cases hj : j = c
            · subst hj
              constructor
              · simp only [Function.update_same]
                constructor
                · intro h; exact absurd h Bool.false_ne_true
                · rintro ⟨hf, hncl⟩
                  exact absurd (fun hcl => hncl ⟨List.mem_cons_self _ _, hclc⟩) (by
                    intro hx; exact hx hclc)
              · rw [ihj.2]
                constructor
                · rintro ⟨hm, hf, hncl⟩
                  exact absurd hclc hncl
                · rintro ⟨hm, hf, hncl⟩
                  exact absurd hclc hncl
            · constructor
              · simp only [Function.update_noteq hj]
                rw [ihj.1]
                constructor
                · rintro ⟨hf, hncl⟩
                  refine ⟨hf, fun hcl => hncl ⟨?_, hcl.2⟩⟩
                  rcases List.mem_cons.mp hcl.1 with h | h
                  · exact absurd h hj
                  · exact h
                · rintro ⟨hf, hncl⟩
                  exact ⟨hf, fun hcl => hncl ⟨List.mem_cons_of_mem _ hcl.1, hcl.2⟩⟩
              · rw [ihj.2]
                constructor
                · rintro ⟨hm, hf, hncl⟩
                  exact ⟨List.mem_cons_of_mem _ hm, hf, hncl⟩
                · rintro ⟨hm, hf, hncl⟩
                  refine ⟨?_, hf, hncl⟩
                  rcases List.mem_cons.mp hm with h | h
                  · exact absurd h hj
                  · exact h
          · -- kept with positive highlight alpha
            rw [if_neg h4]
            have hnclc : ¬ pruneClear mask intensities c := by
              rintro (hcl | hcl)
              · exact h2 hcl
              · exact h4 hcl.2
            by_cases hj : j = c
            · subst hj
              constructor
              · rw [ihj.1]
                constructor
                · rintro ⟨hf, hncl⟩
                  exact ⟨hf, fun hcl => hnclc hcl.2⟩
                · rintro ⟨hf, hncl⟩
                  exact ⟨hf, fun hcl => hnclc hcl.2⟩
              · constructor
                · intro _; exact ⟨List.mem_cons_self _ _, hcflags, hnclc⟩
                · intro _; exact List.mem_cons_self _ _
            · constructor
              · rw [ihj.1]
                constructor
                · rintro ⟨hf, hncl⟩
                  refine ⟨hf, fun hcl => hncl ⟨?_, hcl.2⟩⟩
                  rcases List.mem_cons.mp hcl.1 with h | h
                  · exact absurd h hj
                  · exact h
                · rintro ⟨hf, hncl⟩
                  exact ⟨hf, fun hcl => hncl ⟨List.mem_cons_of_mem _ hcl.1, hcl.2⟩⟩
              · constructor
                · intro hm
                  rcases List.mem_cons.mp hm with h | h
                  · exact absurd h hj
                  · exact ⟨List.mem_cons_of_mem _ ((ihj.2.mp h).1), (ihj.2.mp h).2⟩
                · rintro ⟨hm, hf, hncl⟩
                  refine List.mem_cons_of_mem _ (ihj.2.mpr ⟨?_, hf, hncl⟩)
                  rcases List.mem_cons.mp hm with h | h
                  · exact absurd h hj
                  · exact h

/-- The invariant that the code actually maintains across all operations:
every flagged cell is in the highlight-active list, glows above
`MIN_VISIBLE_INTENSITY`, and is not a glyph cell. -/
def highlightWeakInv (mask : ℕ → ℚ) (s : SimState) : Prop :=
  ∀ j : ℕ, s.highlightFlags j = true →
    j ∈ s.highlightActive ∧ MIN_VISIBLE_INTENSITY < s.intensities j ∧ mask j = 0

/-- The invariant claimed by the specification: list membership iff flag,
and flag iff (visible intensity and non-glyph cell). -/
def highlightClaimInv (mask : ℕ → ℚ) (s : SimState) : Prop :=
  ∀ j : ℕ,
    (j ∈ s.highlightActive ↔ s.highlightFlags j = true) ∧
    (s.highlightFlags j = true ↔
      (MIN_VISIBLE_INTENSITY < s.intensities j ∧ mask j = 0))

/-- Deposits preserve the weak highlight invariant. -/
lemma highlightWeakInv_deposit (mask : ℕ → ℚ) (hm : ∀ i, 0 ≤ mask i)
    (s : SimState) (inv : highlightWeakInv mask s) (cellIndex : ℤ) (value : ℚ) :
    highlightWeakInv mask (depositIntensity mask cellIndex value s) := by
  unfold depositIntensity
  dsimp only
  by_cases hg : cellIndex < 0 ∨ (TOTAL_CELLS : ℤ) ≤ cellIndex ∨ value ≤ 0
  · rw [if_pos hg]
    exact inv
  · rw [if_neg hg]
    by_cases hc : MIN_VISIBLE_INTENSITY < min 1 value ∧
        s.highlightFlags cellIndex.toNat = false ∧ mask cellIndex.toNat ≤ 0
    · rw [if_pos hc]
      -- flag newly set at the deposited cell
      intro j hf
      dsimp only at hf ⊢
      by_cases hj : j = cellIndex.toNat
      · subst hj
        refine ⟨List.mem_append_right _ (List.mem_singleton_self _), ?_, ?_⟩
        · rw [Function.update_same]
          split_ifs with hlt
          · exact hc.1
          · exact lt_of_lt_of_le hc.1 (not_lt.mp hlt)
        · exact le_antisymm hc.2.2 (hm _)
      · rw [Function.update_noteq hj] at hf
        obtain ⟨hmem, hint, hmask⟩ := inv j hf
        exact ⟨List.mem_append_left _ hmem,
          by rw [Function.update_noteq hj]; exact hint, hmask⟩
    · rw [if_neg hc]
      -- no flag change
      intro j hf
      dsimp only at hf ⊢
      obtain ⟨hmem, hint, hmask⟩ := inv j hf
      refine ⟨hmem, ?_, hmask⟩
      by_cases hj : j = cellIndex.toNat
      · subst hj
        rw [Function.update_same]
        split_ifs with hlt
        · exact lt_trans hint hlt
        · exact hint
      · rw [Function.update_noteq hj]
        exact hint

/-- The weak invariant does not look at the particle pool. -/
lemma highlightWeakInv_pool (mask : ℕ → ℚ) (s : SimState)
    (l : List ScatterParticle) (inv : highlightWeakInv mask s) :
    highlightWeakInv mask { s with scatterParticles := l } := inv

/-- Spawns preserve the weak highlight invariant. -/
lemma highlightWeakInv_spawn (mask : ℕ → ℚ) (hm : ∀ i, 0 ≤ mask i)
    (s : SimState) (inv : highlightWeakInv mask s) (cellIndex : ℤ)
    (v dirX dirY speed : ℚ) :
    highlightWeakInv mask (spawnScatterParticle mask cellIndex v dirX dirY speed s) := by
  unfold spawnScatterParticle
  dsimp only
  split_ifs
  · exact inv
  · exact inv
  · exact highlightWeakInv_deposit mask hm _ (highlightWeakInv_pool mask s _ inv) _ _

/-- Ignites preserve the weak highlight invariant (they only raise
intensities; the possible nested spawn goes through ordinary deposits). -/
lemma highlightWeakInv_ignite (mask : ℕ → ℚ) (hm : ∀ i, 0 ≤ mask i)
    (s : SimState) (inv : highlightWeakInv mask s) (cellX cellY : ℤ)
    (intensity : ℚ) (cooldownOk : Bool) (dirX dirY speed : ℚ) :
    highlightWeakInv mask
      (igniteCell mask cellX cellY intensity cooldownOk dirX dirY speed s) := by
  unfold igniteCell
  dsimp only
  split_ifs with hg hsp
  · exact inv
  all_goals {
    first
      | refine highlightWeakInv_spawn mask hm _ ?_ _ _ _ _ _
      | skip
    intro j hf
    obtain ⟨hmem, hint, hmask⟩ := inv j hf
    refine ⟨hmem, ?_, hmask⟩
    dsimp only
    by_cases hj : j = ((cellY * (GRID_SIZE : ℤ) + cellX).toNat)
    · subst hj
      rw [Function.update_same]
      exact lt_of_lt_of_le hint (le_max_left _ _)
    · rw [Function.update_noteq hj]
      exact hint }

/-- A surviving flag in the decay loop comes with an intensity above the
visibility floor. -/
lemma decayCell_keep (decayStep ageStep value age : ℚ)
    (h : (decayCell decayStep ageStep value age).2.2 = true) :
    MIN_VISIBLE_INTENSITY < (decayCell decayStep ageStep value age).1 := by
  unfold decayCell at h ⊢
  dsimp only at h ⊢
  by_cases h1 : value ≤ MIN_VISIBLE_INTENSITY
  · rw [if_pos h1] at h
    exact absurd h Bool.false_ne_true
  · rw [if_neg h1] at h ⊢
    by_cases h2 : TRAIL_RELEASE_MAX_AGE_MS ≤ age + ageStep
    · rw [if_pos h2] at h
      exact absurd h Bool.false_ne_true
    · rw [if_neg h2] at h ⊢
      by_cases h3 : value * decayStep ≤ MIN_VISIBLE_INTENSITY
      · rw [if_pos h3] at h
        exact absurd h Bool.false_ne_true
      · rw [if_neg h3]
        exact not_le.mp h3

/-- Decay steps preserve the weak highlight invariant (a cell that keeps
its flag keeps a visible intensity; the list is untouched). -/
lemma highlightWeakInv_decay (mask : ℕ → ℚ) (s : SimState)
    (inv : highlightWeakInv mask s) (decayStep ageStep : ℚ) :
    highlightWeakInv mask (decayIntensities decayStep ageStep s) := by
  intro j hf
  unfold decayIntensities at hf ⊢
  dsimp only at hf ⊢
  by_cases hj : j < TOTAL_CELLS
  · rw [if_pos hj] at hf
    obtain ⟨hfl, hkeep⟩ := Bool.and_eq_true_iff.mp hf
    obtain ⟨hmem, _, hmask⟩ := inv j hfl
    exact ⟨hmem, by rw [if_pos hj]; exact decayCell_keep _ _ _ _ hkeep, hmask⟩
  · rw [if_neg hj] at hf
    obtain ⟨hmem, hint, hmask⟩ := inv j hf
    exact ⟨hmem, by rw [if_neg hj]; exact hint, hmask⟩

/-- Render passes preserve the weak highlight invariant. -/
lemma highlightWeakInv_draw (mask : ℕ → ℚ) (s : SimState)
    (inv : highlightWeakInv mask s) (explosionTakeover : Bool) :
    highlightWeakInv mask (drawPass mask explosionTakeover s) := by
  unfold drawPass
  dsimp only
  split_ifs
  · exact inv
  · intro j hf
    have hspec := drawPrune_spec mask s.intensities s.highlightActive s.highlightFlags j
    obtain ⟨hfl, hncl⟩ := hspec.1.mp hf
    obtain ⟨hmem, hint, hmask⟩ := inv j hfl
    have hnclj : ¬ pruneClear mask s.intensities j := fun hcl => hncl ⟨hmem, hcl⟩
    exact ⟨hspec.2.mpr ⟨hmem, hfl, hnclj⟩, hint, hmask⟩

/-- Update steps preserve the weak highlight invariant. -/
lemma highlightWeakInv_updateStep (mask : ℕ → ℚ) (hm : ∀ i, 0 ≤ mask i)
    (delta dragStep decayStep curlAmount : ℚ) (noise : ℚ → ℚ → ℚ)
    (acc : SimState × List ScatterParticle) (p : ScatterParticle)
    (inv : highlightWeakInv mask acc.1) :
    highlightWeakInv mask
      (updateScatterStep mask delta dragStep decayStep curlAmount noise acc p).1 := by
  unfold updateScatterStep
  dsimp only
  split_ifs
  · exact inv
  · exact inv
  · exact highlightWeakInv_deposit mask hm _
      (highlightWeakInv_deposit mask hm _ inv _ _) _ _
  · exact highlightWeakInv_deposit mask hm _ inv _ _

/-- The whole particle update preserves the weak highlight invariant. -/
lemma highlightWeakInv_update (mask : ℕ → ℚ) (hm : ∀ i, 0 ≤ mask i)
    (s : SimState) (inv : highlightWeakInv mask s)
    (delta dragStep decayStep curlAmount : ℚ) (noise : ℚ → ℚ → ℚ) :
    highlightWeakInv mask
      (updateScatterParticles mask delta dragStep decayStep curlAmount noise s) := by
  unfold updateScatterParticles
  dsimp only
  split_ifs
  · exact inv
  · have key : ∀ (l : List ScatterParticle) (acc : SimState × List ScatterParticle),
        highlightWeakInv mask acc.1 →
        highlightWeakInv mask
          ((l.foldl (updateScatterStep mask delta dragStep decayStep curlAmount noise)
            acc).1) := by
      intro l
      induction l with
      | nil => intro acc h; exact h
      | cons p rest ih =>
        intro acc h
        rw [List.foldl_cons]
        exact ih _ (highlightWeakInv_updateStep mask hm delta dragStep decayStep
          curlAmount noise acc p h)
    exact highlightWeakInv_pool mask _ _ (key s.scatterParticles (s, []) inv)

/-- The mount state satisfies the weak highlight invariant. -/
lemma highlightWeakInv_init (mask : ℕ → ℚ) : highlightWeakInv mask initState := by
  intro j hf
  exact absurd hf Bool.false_ne_true

/-- Every operation preserves the weak highlight invariant. -/
lemma highlightWeakInv_applyOp (mask : ℕ → ℚ) (hm : ∀ i, 0 ≤ mask i)
    (s : SimState) (inv : highlightWeakInv mask s) (op : Op) :
    highlightWeakInv mask (applyOp mask s op) := by
  cases op with
  | deposit cellIndex value => exact highlightWeakInv_deposit mask hm s inv _ _
  | ignite cellX cellY intensity cooldownOk dirX dirY speed =>
    exact highlightWeakInv_ignite mask hm s inv _ _ _ _ _ _ _
  | decay decayStep ageStep => exact highlightWeakInv_decay mask s inv _ _
  | draw explosionTakeover => exact highlightWeakInv_draw mask s inv _
  | spawn cellIndex baseIntensity dirX dirY speed =>
    exact highlightWeakInv_spawn mask hm s inv _ _ _ _ _
  | update delta dragStep decayStep curlAmount noise =>
    exact highlightWeakInv_update mask hm s inv _ _ _ _ _
  | scatterReset => exact highlightWeakInv_init mask
  | teardown => exact highlightWeakInv_init mask

/-- C1 counterexample: the claimed iff-invariant is broken by the code.
(1) `igniteCell` at intensity `0.5` (a depth-one ripple ignition) raises a
non-glyph cell above `MIN_VISIBLE_INTENSITY` without setting its highlight
flag; (2) `decayIntensities` under the age-based release (here a
`delta = 24` frame, age step `400`) clears a flag without removing the
cell from the highlight-active list (that removal only happens in the next
render pass). -/
theorem highlight_claim_inv_cex :
    ¬ highlightClaimInv (fun _ => 0)
        (applyOps (fun _ => 0) [Op.ignite 0 0 (1/2) false 0 0 0] initState) ∧
    ¬ highlightClaimInv (fun _ => 0)
        (applyOps (fun _ => 0)
          [Op.deposit 5 1, Op.decay (DECAY_FACTOR ^ (24 : ℕ)) 400] initState) := by
  constructor
  · intro h
    have hflag : (applyOps (fun _ => 0) [Op.ignite 0 0 (1/2) false 0 0 0]
        initState).highlightFlags 0 = false := by
      norm_num [applyOps, applyOp, igniteCell, initState, GRID_SIZE]
    have hint : MIN_VISIBLE_INTENSITY < (applyOps (fun _ => 0)
        [Op.ignite 0 0 (1/2) false 0 0 0] initState).intensities 0 := by
      norm_num [applyOps, applyOp, igniteCell, initState, GRID_SIZE,
        MIN_VISIBLE_INTENSITY, Function.update_same]
    have := (h 0).2.mpr ⟨hint, rfl⟩
    rw [hflag] at this
    exact Bool.false_ne_true this
  · intro h
    have hmem : 5 ∈ (applyOps (fun _ => 0)
        [Op.deposit 5 1, Op.decay (DECAY_FACTOR ^ (24 : ℕ)) 400]
        initState).highlightActive := by
      norm_num [applyOps, applyOp, depositIntensity, decayIntensities, initState,
        TOTAL_CELLS, GRID_SIZE, MIN_VISIBLE_INTENSITY, Int.toNat_ofNat]
      rfl
    have hflag : (applyOps (fun _ => 0)
        [Op.deposit 5 1, Op.decay (DECAY_FACTOR ^ (24 : ℕ)) 400]
        initState).highlightFlags 5 = false := by
      norm_num [applyOps, applyOp, depositIntensity, decayIntensities, decayCell,
        initState, TOTAL_CELLS, GRID_SIZE, MIN_VISIBLE_INTENSITY,
        TRAIL_RELEASE_MAX_AGE_MS, Function.update_same, Int.toNat_ofNat]
    have := (h 5).1.mp hmem
    rw [hflag] at this
    exact Bool.false_ne_true this

/-- C1 amended: for every operation schedule from the mount state (deposit,
ignite, decay, render pass, spawn, particle update, reset, teardown) the
invariant that actually holds is one-directional — a set highlight flag
implies list membership, a visible intensity and a non-glyph cell; the full
equivalence between list membership and the flag is restored immediately
after every non-explosion render pass, whose pruning loop drops exactly the
stale entries.  (The converse directions of the claimed invariant fail:
see the counterexample.) -/
theorem highlight_invariant (mask : ℕ → ℚ) (hm : ∀ i, 0 ≤ mask i)
    (ops : List Op) :
    highlightWeakInv mask (applyOps mask ops initState) ∧
    (∀ j : ℕ,
      j ∈ (applyOp mask (applyOps mask ops initState) (Op.draw false)).highlightActive
        ↔ (applyOp mask (applyOps mask ops initState)
            (Op.draw false)).highlightFlags j = true) := by
  have key : ∀ (l : List Op) (s : SimState), highlightWeakInv mask s →
      highlightWeakInv mask (applyOps mask l s) := by
    intro l
    induction l with
    | nil => intro s h; exact h
    | cons op rest ih => intro s h; exact ih _ (highlightWeakInv_applyOp mask hm s h op)
  have inv0 : highlightWeakInv mask (applyOps mask ops initState) :=
    key ops initState (highlightWeakInv_init mask)
  refine ⟨inv0, ?_⟩
  intro j
  set s0 := applyOps mask ops initState with hs0
  show j ∈ (drawPass mask false s0).highlightActive
      ↔ (drawPass mask false s0).highlightFlags j = true
  unfold drawPass
  rw [if_neg (by exact fun h => Bool.false_ne_true h)]
  dsimp only
  have hspec := drawPrune_spec mask s0.intensities s0.highlightActive s0.highlightFlags j
  rw [hspec.1, hspec.2]
  constructor
  · rintro ⟨hm1, hf, hncl⟩
    exact ⟨hf, fun hcl => hncl hcl.2⟩
  · rintro ⟨hf, hncl⟩
    obtain ⟨hmem, _, _⟩ := inv0 j hf
    exact ⟨hmem, hf, fun hcl => hncl ⟨hmem, hcl⟩⟩

/-- Witness for `highlight_invariant`: the zero mask and the schedule
`[deposit 5 1]`; after the subsequent render pass, membership and flag
agree at cell `5`. -/
theorem highlight_invariant_witness :
    highlightWeakInv (fun _ => 0)
      (applyOps (fun _ => 0) [Op.deposit 5 1] initState) ∧
    (5 ∈ (applyOp (fun _ => 0)
        (applyOps (fun _ => 0) [Op.deposit 5 1] initState)
        (Op.draw false)).highlightActive
      ↔ (applyOp (fun _ => 0)
        (applyOps (fun _ => 0) [Op.deposit 5 1] initState)
        (Op.draw false)).highlightFlags 5 = true) := by
  have h := highlight_invariant (fun _ => 0) (fun _ => le_refl 0) [Op.deposit 5 1]
  exact ⟨h.1, h.2 5⟩

/-! ## C8 — global-explosion update -/

/-- An explosion particle (`PixelGrid.tsx:118-125`). -/
structure ExplosionParticle where
  x : ℚ
  y : ℚ
  vx : ℚ
  vy : ℚ
  intensity : ℚ
  color : ℚ × ℚ × ℚ
deriving DecidableEq

/-- The state touched by `updateGlobalExplosion`
(`globalExplosionActiveRef`, `globalExplosionParticlesRef`,
`intensitiesRef`). -/
structure GlobalExplosionState where
  active : Bool
  particles : List ExplosionParticle
  intensities : ℕ → ℚ

/-- The integration step of the explosion loop (`PixelGrid.tsx:913-917`):
drag on both axes, gravity on the vertical velocity, position update,
exponential intensity decay.  `dragStep` and `intensityDecay` abstract
`Math.pow(GLOBAL_EXPLOSION_DRAG, delta)` and
`Math.pow(GLOBAL_EXPLOSION_INTENSITY_DECAY, delta)`; `gravityStep` is
`GLOBAL_EXPLOSION_GRAVITY * delta`. -/
def integrateExplosionParticle (delta dragStep intensityDecay gravityStep : ℚ)
    (p : ExplosionParticle) : ExplosionParticle :=
  let vx1 := p.vx * dragStep
  let vy1 := (p.vy + gravityStep) * dragStep
  { p with
    vx := vx1
    vy := vy1
    x := p.x + vx1 * delta
    y := p.y + vy1 * delta
    intensity := p.intensity * intensityDecay }

/-- The loop body of `updateGlobalExplosion` (`PixelGrid.tsx:911-940`):
integrate, cull on the intensity floor and the extended bounding region,
mark energy, max-write the clamped intensity into the particle's cell when
it lies on the grid, and keep the particle. -/
def updateGlobalExplosionStep (delta dragStep intensityDecay gravityStep : ℚ)
    (acc : (ℕ → ℚ) × List ExplosionParticle × Bool) (p : ExplosionParticle) :
    (ℕ → ℚ) × List ExplosionParticle × Bool :=
  let q := integrateExplosionParticle delta dragStep intensityDecay gravityStep p
  if q.intensity ≤ MIN_VISIBLE_INTENSITY then acc
  else if q.x < -1 ∨ (GRID_SIZE : ℚ) < q.x ∨ q.y < -1 ∨ (GRID_SIZE : ℚ) + 6 < q.y then
    acc
  else
    let f :=
      if 0 ≤ q.x ∧ q.x < (GRID_SIZE : ℚ) ∧ 0 ≤ q.y ∧ q.y < (GRID_SIZE : ℚ) then
        let cellIndex := (⌊q.y⌋ * (GRID_SIZE : ℤ) + ⌊q.x⌋).toNat
        let normalizedIntensity := min 1 q.intensity
        if acc.1 cellIndex < normalizedIntensity then
          Function.update acc.1 cellIndex normalizedIntensity
        else acc.1
      else acc.1
    (f, acc.2.1 ++ [q], true)

/-- `updateGlobalExplosion(delta)` (`PixelGrid.tsx:890-952`): inactive is a
no-op returning `false`; an active empty burst deactivates and clears the
field; otherwise the field is zero-filled and rebuilt while the particle
list is filtered, and if no energy remains the explosion ends with a
cleared field. -/
def updateGlobalExplosion (delta dragStep intensityDecay : ℚ)
    (s : GlobalExplosionState) : GlobalExplosionState × Bool :=
  if s.active = false then (s, false)
  else if s.particles.length = 0 then
    ({ s with active := false, intensities := fun _ => 0 }, false)
  else
    let gravityStep := GLOBAL_EXPLOSION_GRAVITY * delta
    let res := s.particles.foldl
      (updateGlobalExplosionStep delta dragStep intensityDecay gravityStep)
      (fun _ => 0, [], false)
    if res.2.2 = false then
      ({ active := false, particles := [], intensities := fun _ => 0 }, false)
    else
      ({ s with particles := res.2.1, intensities := res.1 }, true)

/-- Survival of an integrated explosion particle: above the intensity floor
and inside the extended bounding region. -/
def explosionKeep (q : ExplosionParticle) : Prop :=
  MIN_VISIBLE_INTENSITY < q.intensity ∧ -1 ≤ q.x ∧ q.x ≤ (GRID_SIZE : ℚ) ∧
    -1 ≤ q.y ∧ q.y ≤ (GRID_SIZE : ℚ) + 6

instance (q : ExplosionParticle) : Decidable (explosionKeep q) := by
  unfold explosionKeep
  infer_instance

/-- Whether a surviving particle lies in cell `n` of the grid. -/
def explosionInCell (q : ExplosionParticle) (n : ℕ) : Bool :=
  decide (0 ≤ q.x ∧ q.x < (GRID_SIZE : ℚ) ∧ 0 ≤ q.y ∧ q.y < (GRID_SIZE : ℚ)) &&
    ((⌊q.y⌋ * (GRID_SIZE : ℤ) + ⌊q.x⌋).toNat == n)

/-- Maximum of the clamped intensities of the particles of `l` lying in
cell `n` (`0` when none does). -/
def survivorCellMax (l : List ExplosionParticle) (n : ℕ) : ℚ :=
  l.foldl (fun v q => if explosionInCell q n then max v (min 1 q.intensity) else v) 0

/-- The integrated survivors of a particle list. -/
def explosionSurvivors (delta dragStep intensityDecay gravityStep : ℚ)
    (l : List ExplosionParticle) : List ExplosionParticle :=
  (l.map (integrateExplosionParticle delta dragStep intensityDecay gravityStep)).filter
    (fun q => decide (explosionKeep q))

/-- One explosion loop step, characterised: a surviving particle is
appended, its clamped intensity max-blended into its cell, and the energy
bit set; a culled particle leaves the accumulator unchanged. -/
lemma updateGlobalExplosionStep_eq (delta dragStep intensityDecay gravityStep : ℚ)
    (f0 : ℕ → ℚ) (next0 : List ExplosionParticle) (e0 : Bool) (p : ExplosionParticle) :
    updateGlobalExplosionStep delta dragStep intensityDecay gravityStep (f0, next0, e0) p
      = if explosionKeep
            (integrateExplosionParticle delta dragStep intensityDecay gravityStep p) then
          (fun n =>
            if explosionInCell
                (integrateExplosionParticle delta dragStep intensityDecay gravityStep p) n
            then max (f0 n) (min 1
              (integrateExplosionParticle delta dragStep intensityDecay gravityStep
                p).intensity)
            else f0 n,
           next0 ++ [integrateExplosionParticle delta dragStep intensityDecay gravityStep p],
           true)
        else (f0, next0, e0) := by
  set q := integrateExplosionParticle delta dragStep intensityDecay gravityStep p with hq
  unfold updateGlobalExplosionStep
  rw [← hq]
  dsimp only
  by_cases h1 : q.intensity ≤ MIN_VISIBLE_INTENSITY
  · rw [if_pos h1, if_neg (fun hk => absurd h1 (not_le.mpr hk.1))]
  · rw [if_neg h1]
    by_cases h2 : q.x < -1 ∨ (GRID_SIZE : ℚ) < q.x ∨ q.y < -1 ∨ (GRID_SIZE : ℚ) + 6 < q.y
    · rw [if_pos h2]
      have hnk : ¬ explosionKeep q := by
        rintro ⟨hi, hx1, hx2, hy1, hy2⟩
        rcases h2 with h | h | h | h
        · exact absurd hx1 (not_le.mpr h)
        · exact absurd hx2 (not_le.mpr h)
        · exact absurd hy1 (not_le.mpr h)
        · exact absurd hy2 (not_le.mpr h)
      rw [if_neg hnk]
    · rw [if_neg h2]
      push_neg at h2
      rw [if_pos (show explosionKeep q from
        ⟨not_le.mp h1, h2.1, h2.2.1, h2.2.2.1, h2.2.2.2⟩)]
      refine Prod.ext ?_ rfl
      dsimp only
      funext n
      by_cases hg : 0 ≤ q.x ∧ q.x < (GRID_SIZE : ℚ) ∧ 0 ≤ q.y ∧ q.y < (GRID_SIZE : ℚ)
      · rw [if_pos hg]
        by_cases hcell : ((⌊q.y⌋ * (GRID_SIZE : ℤ) + ⌊q.x⌋).toNat) = n
        · have hic : explosionInCell q n = true := by
            unfold explosionInCell
            rw [Bool.and_eq_true, decide_eq_true_eq, beq_iff_eq]
            exact ⟨hg, hcell⟩
          rw [hic, if_pos rfl]
          subst hcell
          by_cases hlt : f0 ((⌊q.y⌋ * (GRID_SIZE : ℤ) + ⌊q.x⌋).toNat) < min 1 q.intensity
          · rw [if_pos hlt, Function.update_same, max_eq_right (le_of_lt hlt)]
          · rw [if_neg hlt, max_eq_left (not_lt.mp hlt)]
        · have hic : explosionInCell q n = false := by
            unfold explosionInCell
            rw [Bool.and_eq_false_iff]
            right
            rw [beq_eq_false_iff_ne]
            exact hcell
          rw [hic, if_neg (show ¬ (false = true) from Bool.false_ne_true)]
          by_cases hlt : f0 ((⌊q.y⌋ * (GRID_SIZE : ℤ) + ⌊q.x⌋).toNat) < min 1 q.intensity
          · rw [if_pos hlt, Function.update_noteq (fun hx => hcell hx.symm)]
          · rw [if_neg hlt]
      · rw [if_neg hg]
        have hic : explosionInCell q n = false := by
          unfold explosionInCell
          rw [Bool.and_eq_false_iff]
          left
          rw [decide_eq_false_iff_not]
          exact hg
        rw [hic, if_neg (show ¬ (false = true) from Bool.false_ne_true)]

/-- Characterisation of the explosion loop fold: the survivor list is the
filtered image of the integration map, the energy bit records that some
particle survived, and the rebuilt field is the per-cell running max of the
survivors' clamped intensities. -/
lemma explosion_fold_spec (delta dragStep intensityDecay gravityStep : ℚ) :
    ∀ (l : List ExplosionParticle) (f0 : ℕ → ℚ) (next0 : List ExplosionParticle)
      (e0 : Bool),
      (l.foldl (updateGlobalExplosionStep delta dragStep intensityDecay gravityStep)
          (f0, next0, e0)).2.1
        = next0 ++ explosionSurvivors delta dragStep intensityDecay gravityStep l ∧
      (l.foldl (updateGlobalExplosionStep delta dragStep intensityDecay gravityStep)
          (f0, next0, e0)).2.2
        = (e0 || !(explosionSurvivors delta dragStep intensityDecay gravityStep l).isEmpty) ∧
      ∀ n : ℕ,
        (l.foldl (updateGlobalExplosionStep delta dragStep intensityDecay gravityStep)
            (f0, next0, e0)).1 n
          = (explosionSurvivors delta dragStep intensityDecay gravityStep l).foldl
              (fun v q => if explosionInCell q n then max v (min 1 q.intensity) else v)
              (f0 n) := by
  intro l
  induction l with
  | nil =>
    intro f0 next0 e0
    refine ⟨by simp [explosionSurvivors], by simp [explosionSurvivors], fun n => by
      simp [explosionSurvivors]⟩
  | cons p rest ih =>
    intro f0 next0 e0
    have hsurv : explosionSurvivors delta dragStep intensityDecay gravityStep (p :: rest)
        = (if explosionKeep (integrateExplosionParticle delta dragStep intensityDecay
              gravityStep p) then
            [integrateExplosionParticle delta dragStep intensityDecay gravityStep p]
          else [])
          ++ explosionSurvivors delta dragStep intensityDecay gravityStep rest := by
      unfold explosionSurvivors
      rw [List.map_cons, List.filter_cons]
      by_cases h : explosionKeep
          (integrateExplosionParticle delta dragStep intensityDecay gravityStep p)
      · rw [if_pos (decide_eq_true h), if_pos h, List.singleton_append]
      · rw [if_neg (by simpa using h), if_neg h, List.nil_append]
    rw [List.foldl_cons, updateGlobalExplosionStep_eq]
    by_cases hk : explosionKeep
        (integrateExplosionParticle delta dragStep intensityDecay gravityStep p)
    · rw [if_pos hk]
      obtain ⟨ihA, ihB, ihC⟩ := ih
        (fun n =>
          if explosionInCell
              (integrateExplosionParticle delta dragStep intensityDecay gravityStep p) n
          then max (f0 n) (min 1
            (integrateExplosionParticle delta dragStep intensityDecay gravityStep
              p).intensity)
          else f0 n)
        (next0 ++ [integrateExplosionParticle delta dragStep intensityDecay gravityStep p])
        true
      refine ⟨?_, ?_, ?_⟩
      · rw [ihA, hsurv, if_pos hk, List.append_assoc, List.singleton_append]
      · rw [ihB, hsurv, if_pos hk]
        simp
      · intro n
        rw [ihC n, hsurv, if_pos hk, List.singleton_append, List.foldl_cons]
    · rw [if_neg hk]
      obtain ⟨ihA, ihB, ihC⟩ := ih f0 next0 e0
      refine ⟨?_, ?_, ?_⟩
      · rw [ihA, hsurv, if_neg hk, List.nil_append]
      · rw [ihB, hsurv, if_neg hk, List.nil_append]
      · intro n
        rw [ihC n, hsurv, if_neg hk, List.nil_append]

/-- C8: one update step of an active explosion filters the integrated
particles through the intensity-floor and bounding-region cull, rebuilds
the field as the per-cell maximum of `min(1, intensity)` over the
surviving particles lying in that cell (`0` elsewhere), and — when no
particle survives — deactivates the explosion, empties the particle list,
zero-fills the field and returns `false`; when some particle survives it
keeps the explosion active and returns `true`. -/
theorem updateGlobalExplosion_spec (delta dragStep intensityDecay : ℚ)
    (s : GlobalExplosionState) (hact : s.active = true) :
    (updateGlobalExplosion delta dragStep intensityDecay s).1.particles
      = explosionSurvivors delta dragStep intensityDecay
          (GLOBAL_EXPLOSION_GRAVITY * delta) s.particles ∧
    (∀ n : ℕ,
      (updateGlobalExplosion delta dragStep intensityDecay s).1.intensities n
        = survivorCellMax (explosionSurvivors delta dragStep intensityDecay
            (GLOBAL_EXPLOSION_GRAVITY * delta) s.particles) n) ∧
    (explosionSurvivors delta dragStep intensityDecay
        (GLOBAL_EXPLOSION_GRAVITY * delta) s.particles = [] →
      (updateGlobalExplosion delta dragStep intensityDecay s).1.active = false ∧
      (updateGlobalExplosion delta dragStep intensityDecay s).1.particles = [] ∧
      (∀ n : ℕ, (updateGlobalExplosion delta dragStep intensityDecay s).1.intensities n = 0) ∧
      (updateGlobalExplosion delta dragStep intensityDecay s).2 = false) ∧
    (explosionSurvivors delta dragStep intensityDecay
        (GLOBAL_EXPLOSION_GRAVITY * delta) s.particles ≠ [] →
      (updateGlobalExplosion delta dragStep intensityDecay s).1.active = true ∧
      (updateGlobalExplosion delta dragStep intensityDecay s).2 = true) := by
  have hfold := explosion_fold_spec delta dragStep intensityDecay
    (GLOBAL_EXPLOSION_GRAVITY * delta) s.particles (fun _ => 0) [] false
  unfold updateGlobalExplosion
  rw [hact, if_neg (by simp)]
  by_cases hemp : s.particles.length = 0
  · have hnil : s.particles = [] := List.length_eq_zero.mp hemp
    have hsurvnil : explosionSurvivors delta dragStep intensityDecay
        (GLOBAL_EXPLOSION_GRAVITY * delta) s.particles = [] := by
      rw [hnil]
      rfl
    rw [if_pos hemp]
    refine ⟨?_, ?_, ?_, ?_⟩
    · dsimp only
      rw [hsurvnil, hnil]
    · intro n
      rw [hsurvnil]
      rfl
    · intro _
      exact ⟨rfl, by dsimp only; exact hnil, fun n => rfl, rfl⟩
    · intro hcon
      exact absurd hsurvnil hcon
  · rw [if_neg hemp]
    dsimp only
    obtain ⟨hA, hB, hC⟩ := hfold
    by_cases hs : explosionSurvivors delta dragStep intensityDecay
        (GLOBAL_EXPLOSION_GRAVITY * delta) s.particles = []
    · have hbit : (s.particles.foldl
          (updateGlobalExplosionStep delta dragStep intensityDecay
            (GLOBAL_EXPLOSION_GRAVITY * delta)) (fun _ => 0, [], false)).2.2 = false := by
        rw [hB, hs]
        rfl
      rw [if_pos hbit]
      refine ⟨?_, ?_, ?_, ?_⟩
      · rw [hs]
      · intro n
        rw [hs]
        rfl
      · intro _
        exact ⟨rfl, rfl, fun n => rfl, rfl⟩
      · intro hcon
        exact absurd hs hcon
    · have hie : (explosionSurvivors delta dragStep intensityDecay
          (GLOBAL_EXPLOSION_GRAVITY * delta) s.particles).isEmpty = false := by
        cases hcase : explosionSurvivors delta dragStep intensityDecay
            (GLOBAL_EXPLOSION_GRAVITY * delta) s.particles with
        | nil => exact absurd hcase hs
        | cons a t => rfl
      have hbit : (s.particles.foldl
          (updateGlobalExplosionStep delta dragStep intensityDecay
            (GLOBAL_EXPLOSION_GRAVITY * delta)) (fun _ => 0, [], false)).2.2 = true := by
        rw [hB, hie]
        rfl
      rw [if_neg (by simp [hbit])]
      refine ⟨?_, ?_, ?_, ?_⟩
      · dsimp only
        rw [hA, List.nil_append]
      · intro n
        dsimp only
        exact hC n
      · intro hcon
        exact absurd hcon hs
      · intro _
        exact ⟨rfl, rfl⟩

/-- Witness for `updateGlobalExplosion_spec`: a one-particle active
explosion at rest in cell `(10, 10)` with unit step factors; the particle
survives, the update stays active, and the field holds its clamped
intensity at cell `10*98+10 = 990`. -/
theorem updateGlobalExplosion_spec_witness :
    (updateGlobalExplosion 0 1 1
        { active := true,
          particles := [{ x := 10, y := 10, vx := 0, vy := 0, intensity := 1, color := (0, 0, 0) }],
          intensities := fun _ => 0 }).2 = true := by
  have h := updateGlobalExplosion_spec 0 1 1
    { active := true,
      particles := [{ x := 10, y := 10, vx := 0, vy := 0, intensity := 1, color := (0, 0, 0) }],
      intensities := fun _ => 0 } rfl
  refine (h.2.2.2 ?_).2
  intro hcon
  have : explosionKeep (integrateExplosionParticle 0 1 1
      (GLOBAL_EXPLOSION_GRAVITY * 0)
      { x := 10, y := 10, vx := 0, vy := 0, intensity := 1, color := (0, 0, 0) }) := by
    unfold explosionKeep integrateExplosionParticle
    norm_num [MIN_VISIBLE_INTENSITY, GRID_SIZE]
  have hmem : (integrateExplosionParticle 0 1 1 (GLOBAL_EXPLOSION_GRAVITY * 0)
      { x := 10, y := 10, vx := 0, vy := 0, intensity := 1, color := (0, 0, 0) })
      ∈ explosionSurvivors 0 1 1 (GLOBAL_EXPLOSION_GRAVITY * 0)
        [{ x := 10, y := 10, vx := 0, vy := 0, intensity := 1, color := (0, 0, 0) }] := by
    unfold explosionSurvivors
    rw [List.map_singleton]
    exact List.mem_filter.mpr ⟨List.mem_singleton_self _, decide_eq_true this⟩
  rw [hcon] at hmem
  exact absurd hmem (List.not_mem_nil _)

/-! ## C7 — pointer ripple -/

/-- `RIPPLE_OFFSETS` (`PixelGrid.tsx:305-314`): the eight neighbour
directions. -/
def RIPPLE_OFFSETS : List (ℤ × ℤ) :=
  [(1, 0), (-1, 0), (0, 1), (0, -1), (1, 1), (1, -1), (-1, 1), (-1, -1)]

/-- A pending queue entry of the ripple loop (`PixelGrid.tsx:1348-1350`). -/
structure RippleEntry where
  x : ℤ
  y : ℤ
  intensity : ℚ
  depth : ℕ
deriving DecidableEq

/-- One ignition registered by the ripple loop
(`window.setTimeout(() => igniteCell(x, y, intensity), depth *
RIPPLE_STEP_DELAY_MS)`, `PixelGrid.tsx:1365-1368`). -/
structure ScheduledIgnite where
  x : ℤ
  y : ℤ
  delayMs : ℕ
  intensity : ℚ
deriving DecidableEq

/-- The ripple queue loop (`applyRipple`, `PixelGrid.tsx:1344-1381`): the
source iterates an index over a growing array, which is the same as
processing the queue head and appending pushes; `fuel` bounds the number of
iterations (the source loop ends because every expansion consumes a fresh
visited coordinate of the finite grid and pushes at most eight entries; the
concrete fuel below is far above that bound, and no theorem depends on the
queue draining). -/
def rippleGo : ℕ → List RippleEntry → List (ℤ × ℤ) → List ScheduledIgnite →
    List ScheduledIgnite
  | 0, _, _, acc => acc
  | _ + 1, [], _, acc => acc
  | fuel + 1, e :: rest, visited, acc =>
    if e.x < 0 ∨ (GRID_SIZE : ℤ) ≤ e.x ∨ e.y < 0 ∨ (GRID_SIZE : ℤ) ≤ e.y then
      rippleGo fuel rest visited acc
    else if (e.x, e.y) ∈ visited then
      rippleGo fuel rest visited acc
    else
      let visited1 := visited ++ [(e.x, e.y)]
      let acc1 := acc ++ [⟨e.x, e.y, e.depth * RIPPLE_STEP_DELAY_MS, e.intensity⟩]
      let nextIntensity := e.intensity * (1/2)
      if nextIntensity < MIN_RIPPLE_INTENSITY then
        rippleGo fuel rest visited1 acc1
      else
        rippleGo fuel
          (rest ++ RIPPLE_OFFSETS.map
            (fun d => ⟨e.x + d.1, e.y + d.2, nextIntensity, e.depth + 1⟩))
          visited1 acc1

/-- Ample fuel for the ripple loop (the source loop processes at most
`1 + 8 * 98²` entries). -/
def RIPPLE_FUEL : ℕ := 100000

/-- `applyRipple(cellX, cellY)` (`PixelGrid.tsx:1344-1381`) as the list of
scheduled ignitions it registers, in scheduling order. -/
def applyRipple (cellX cellY : ℤ) : List ScheduledIgnite :=
  rippleGo RIPPLE_FUEL [⟨cellX, cellY, 1, 0⟩] [] []

/-- Queue invariant of the ripple loop: depths are nondecreasing with
spread at most one (the breadth-first layering), and every entry carries
intensity `(1/2)^depth` with depth at most `4`. -/
def rippleQInv (q : List RippleEntry) : Prop :=
  q.Pairwise (fun a b => a.depth ≤ b.depth ∧ b.depth ≤ a.depth + 1) ∧
  ∀ e ∈ q, e.intensity = (1/2 : ℚ) ^ e.depth ∧ e.depth ≤ 4

/-- Halving below `MIN_RIPPLE_INTENSITY` bounds the breadth-first depth:
if `(1/2)^(k+1)` is still at least the ripple floor then `k + 1 ≤ 4`. -/
lemma ripple_depth_bound (k : ℕ)
    (h : ¬ ((1/2 : ℚ) ^ k * (1/2) < MIN_RIPPLE_INTENSITY)) : k + 1 ≤ 4 := by
  by_contra hk
  apply h
  have h5 : (5 : ℕ) ≤ k + 1 := by omega
  calc (1/2 : ℚ) ^ k * (1/2) = (1/2 : ℚ) ^ (k + 1) := by rw [pow_succ]
    _ ≤ (1/2 : ℚ) ^ (5 : ℕ) :=
        pow_le_pow_of_le_one (by norm_num) (by norm_num) h5
    _ < MIN_RIPPLE_INTENSITY := by norm_num [MIN_RIPPLE_INTENSITY]

/-- Main induction for the ripple loop: given the queue invariant, an
accumulator whose coordinates are distinct, already-visited, in bounds and
well-formed, with nondecreasing delays all below the pending queue's
delays, the final schedule extends the accumulator and satisfies all the
claimed properties. -/
lemma rippleGo_spec :
    ∀ (fuel : ℕ) (queue : List RippleEntry) (visited : List (ℤ × ℤ))
      (acc : List ScheduledIgnite),
      rippleQInv queue →
      ((acc.map (fun s => (s.x, s.y))).Nodup) →
      (∀ a ∈ acc, (a.x, a.y) ∈ visited) →
      (∀ a ∈ acc, (0 ≤ a.x ∧ a.x < (GRID_SIZE : ℤ) ∧ 0 ≤ a.y ∧ a.y < (GRID_SIZE : ℤ)) ∧
        ∃ d : ℕ, d ≤ 4 ∧ a.delayMs = d * RIPPLE_STEP_DELAY_MS ∧
          a.intensity = (1/2 : ℚ) ^ d) →
      acc.Pairwise (fun a b => a.delayMs ≤ b.delayMs) →
      (∀ a ∈ acc, ∀ e ∈ queue, a.delayMs ≤ e.depth * RIPPLE_STEP_DELAY_MS) →
      (∃ tail, rippleGo fuel queue visited acc = acc ++ tail) ∧
      (((rippleGo fuel queue visited acc).map (fun s => (s.x, s.y))).Nodup) ∧
      (∀ a ∈ rippleGo fuel queue visited acc,
        (0 ≤ a.x ∧ a.x < (GRID_SIZE : ℤ) ∧ 0 ≤ a.y ∧ a.y < (GRID_SIZE : ℤ)) ∧
        ∃ d : ℕ, d ≤ 4 ∧ a.delayMs = d * RIPPLE_STEP_DELAY_MS ∧
          a.intensity = (1/2 : ℚ) ^ d) ∧
      (rippleGo fuel queue visited acc).Pairwise (fun a b => a.delayMs ≤ b.delayMs) := by
  intro fuel
  induction fuel with
  | zero =>
    intro queue visited acc hq hA1 hA2 hA3 hA4 hcross
    exact ⟨⟨[], by simp [rippleGo]⟩, by simpa [rippleGo] using hA1,
      by simpa [rippleGo] using hA3, by simpa [rippleGo] using hA4⟩
  | succ fuel ih =>
    intro queue visited acc hq hA1 hA2 hA3 hA4 hcross
    match queue with
    | [] =>
      exact ⟨⟨[], by simp [rippleGo]⟩, by simpa [rippleGo] using hA1,
        by simpa [rippleGo] using hA3, by simpa [rippleGo] using hA4⟩
    | e :: rest =>
      have hqrest : rippleQInv rest :=
        ⟨(List.pairwise_cons.mp hq.1).2, fun x hx => hq.2 x (List.mem_cons_of_mem _ hx)⟩
      have hhead := hq.2 e (List.mem_cons_self _ _)
      have hrel := (List.pairwise_cons.mp hq.1).1
      show (∃ tail, rippleGo (fuel + 1) (e :: rest) visited acc = acc ++ tail) ∧ _
      rw [rippleGo]
      by_cases hoob : e.x < 0 ∨ (GRID_SIZE : ℤ) ≤ e.x ∨ e.y < 0 ∨ (GRID_SIZE : ℤ) ≤ e.y
      · rw [if_pos hoob]
        exact ih rest visited acc hqrest hA1 hA2 hA3 hA4
          (fun a ha x hx => hcross a ha x (List.mem_cons_of_mem _ hx))
      · rw [if_neg hoob]
        by_cases hvis : (e.x, e.y) ∈ visited
        · rw [if_pos hvis]
          exact ih rest visited acc hqrest hA1 hA2 hA3 hA4
            (fun a ha x hx => hcross a ha x (List.mem_cons_of_mem _ hx))
        · rw [if_neg hvis]
          dsimp only
          push_neg at hoob
          set s : ScheduledIgnite :=
            ⟨e.x, e.y, e.depth * RIPPLE_STEP_DELAY_MS, e.intensity⟩ with hs
          have hA1n : ((acc ++ [s]).map (fun a => (a.x, a.y))).Nodup := by
            rw [List.map_append, List.map_singleton]
            rw [List.nodup_append]
            refine ⟨hA1, List.nodup_singleton _, ?_⟩
            intro p hp hps
            rw [List.mem_singleton] at hps
            obtain ⟨a, ha, hpa⟩ := List.mem_map.mp hp
            subst hps
            rw [hs] at hpa
            exact hvis (hpa ▸ hA2 a ha)
          have hA2n : ∀ a ∈ acc ++ [s], (a.x, a.y) ∈ visited ++ [(e.x, e.y)] := by
            intro a ha
            rcases List.mem_append.mp ha with h | h
            · exact List.mem_append_left _ (hA2 a h)
            · rw [List.mem_singleton] at h
              subst h
              exact List.mem_append_right _ (by rw [hs]; exact List.mem_singleton_self _)
          have hA3n : ∀ a ∈ acc ++ [s],
              (0 ≤ a.x ∧ a.x < (GRID_SIZE : ℤ) ∧ 0 ≤ a.y ∧ a.y < (GRID_SIZE : ℤ)) ∧
              ∃ d : ℕ, d ≤ 4 ∧ a.delayMs = d * RIPPLE_STEP_DELAY_MS ∧
                a.intensity = (1/2 : ℚ) ^ d := by
            intro a ha
            rcases List.mem_append.mp ha with h | h
            · exact hA3 a h
            · rw [List.mem_singleton] at h
              subst h
              exact ⟨⟨hoob.1, hoob.2.1, hoob.2.2.1, hoob.2.2.2⟩,
                e.depth, hhead.2, rfl, hhead.1⟩
          have hA4n : (acc ++ [s]).Pairwise (fun a b => a.delayMs ≤ b.delayMs) := by
            rw [List.pairwise_append]
            refine ⟨hA4, List.pairwise_singleton _ _, ?_⟩
            intro a ha b hb
            rw [List.mem_singleton] at hb
            subst hb
            exact hcross a ha e (List.mem_cons_self _ _)
          by_cases hstop : e.intensity * (1/2) < MIN_RIPPLE_INTENSITY
          · rw [if_pos hstop]
            obtain ⟨⟨tail, htail⟩, hN, hW, hP⟩ := ih rest (visited ++ [(e.x, e.y)])
              (acc ++ [s]) hqrest hA1n hA2n hA3n hA4n
              (fun a ha x hx => by
                rcases List.mem_append.mp ha with h | h
                · exact hcross a h x (List.mem_cons_of_mem _ hx)
                · rw [List.mem_singleton] at h
                  subst h
                  rw [hs]
                  exact Nat.mul_le_mul_right _ (hrel x hx).1)
            exact ⟨⟨[s] ++ tail, by rw [htail, List.append_assoc]⟩, hN, hW, hP⟩
          · rw [if_neg hstop]
            have hd4 : e.depth + 1 ≤ 4 := by
              apply ripple_depth_bound
              rw [← hhead.1]
              exact hstop
            have hqn : rippleQInv (rest ++ RIPPLE_OFFSETS.map
                (fun d => ⟨e.x + d.1, e.y + d.2, e.intensity * (1/2), e.depth + 1⟩)) := by
              constructor
              · rw [List.pairwise_append]
                refine ⟨hqrest.1, ?_, ?_⟩
                · exact List.pairwise_of_forall_mem_list (fun a ha b hb => by
                    obtain ⟨d1, hd1, rfl⟩ := List.mem_map.mp ha
                    obtain ⟨d2, hd2, rfl⟩ := List.mem_map.mp hb
                    exact ⟨le_refl _, Nat.le_succ _⟩)
                · intro a ha p hp
                  obtain ⟨d, hd, rfl⟩ := List.mem_map.mp hp
                  have := (hrel a ha)
                  constructor
                  · exact this.2
                  · exact Nat.succ_le_succ this.1
              · intro p hp
                rcases List.mem_append.mp hp with h | h
                · exact hqrest.2 p h
                · obtain ⟨d, hd, rfl⟩ := List.mem_map.mp h
                  refine ⟨?_, hd4⟩
                  dsimp only
                  rw [hhead.1, pow_succ]
            obtain ⟨⟨tail, htail⟩, hN, hW, hP⟩ := ih _ (visited ++ [(e.x, e.y)])
              (acc ++ [s]) hqn hA1n hA2n hA3n hA4n
              (fun a ha x hx => by
                rcases List.mem_append.mp ha with h | h
                · rcases List.mem_append.mp hx with hx1 | hx1
                  · exact hcross a h x (List.mem_cons_of_mem _ hx1)
                  · obtain ⟨d, hd, rfl⟩ := List.mem_map.mp hx1
                    exact le_trans (hcross a h e (List.mem_cons_self _ _))
                      (Nat.mul_le_mul_right _ (Nat.le_succ _))
                · rw [List.mem_singleton] at h
                  subst h
                  rw [hs]
                  rcases List.mem_append.mp hx with hx1 | hx1
                  · exact Nat.mul_le_mul_right _ (hrel x hx1).1
                  · obtain ⟨d, hd, rfl⟩ := List.mem_map.mp hx1
                    exact Nat.mul_le_mul_right _ (Nat.le_succ _))
            exact ⟨⟨[s] ++ tail, by rw [htail, List.append_assoc]⟩, hN, hW, hP⟩

/-- C7: for every in-bounds origin, the ripple schedules each cell at most
once (distinct coordinates via the visited set), every scheduled ignition
is in bounds and carries delay `d * RIPPLE_STEP_DELAY_MS` and intensity
`(1/2)^d` for its breadth-first depth `d ≤ 4` (the depth at which halving
falls below `MIN_RIPPLE_INTENSITY`, since `(1/2)^4 ≥ 0.06 > (1/2)^5`),
ignitions are scheduled in nondecreasing depth order (so a cell's single
entry is at its first-reached depth), and the origin itself is scheduled
first, at depth `0` with intensity `1`. -/
theorem applyRipple_spec (cellX cellY : ℤ)
    (hx0 : 0 ≤ cellX) (hx1 : cellX < (GRID_SIZE : ℤ))
    (hy0 : 0 ≤ cellY) (hy1 : cellY < (GRID_SIZE : ℤ)) :
    ((applyRipple cellX cellY).map (fun s => (s.x, s.y))).Nodup ∧
    (∀ a ∈ applyRipple cellX cellY,
      (0 ≤ a.x ∧ a.x < (GRID_SIZE : ℤ) ∧ 0 ≤ a.y ∧ a.y < (GRID_SIZE : ℤ)) ∧
      ∃ d : ℕ, d ≤ 4 ∧ a.delayMs = d * RIPPLE_STEP_DELAY_MS ∧
        a.intensity = (1/2 : ℚ) ^ d) ∧
    (applyRipple cellX cellY).Pairwise (fun a b => a.delayMs ≤ b.delayMs) ∧
    (applyRipple cellX cellY).head? = some ⟨cellX, cellY, 0, 1⟩ := by
  unfold applyRipple
  rw [show RIPPLE_FUEL = 99999 + 1 from rfl, rippleGo]
  rw [if_neg (by push_neg; exact ⟨hx0, hx1, hy0, hy1⟩), if_neg (List.not_mem_nil _)]
  dsimp only
  rw [if_neg (by norm_num [MIN_RIPPLE_INTENSITY])]
  have hq : rippleQInv (RIPPLE_OFFSETS.map
      (fun d => (⟨cellX + d.1, cellY + d.2, 1 * (1/2), 0 + 1⟩ : RippleEntry))) := by
    constructor
    · exact List.pairwise_of_forall_mem_list (fun a ha b hb => by
        obtain ⟨d1, hd1, rfl⟩ := List.mem_map.mp ha
        obtain ⟨d2, hd2, rfl⟩ := List.mem_map.mp hb
        exact ⟨le_refl _, Nat.le_succ _⟩)
    · intro p hp
      obtain ⟨d, hd, rfl⟩ := List.mem_map.mp hp
      refine ⟨by norm_num, by norm_num⟩
  obtain ⟨⟨tail, htail⟩, hN, hW, hP⟩ := rippleGo_spec 99999
    (RIPPLE_OFFSETS.map
      (fun d => (⟨cellX + d.1, cellY + d.2, 1 * (1/2), 0 + 1⟩ : RippleEntry)))
    [(cellX, cellY)]
    [⟨cellX, cellY, 0 * RIPPLE_STEP_DELAY_MS, 1⟩]
    hq
    (by simp)
    (by
      intro a ha
      rw [List.mem_singleton] at ha
      subst ha
      exact List.mem_singleton_self _)
    (by
      intro a ha
      rw [List.mem_singleton] at ha
      subst ha
      exact ⟨⟨hx0, hx1, hy0, hy1⟩, 0, by norm_num, rfl, by norm_num⟩)
    (List.pairwise_singleton _ _)
    (by
      intro a ha x hx
      rw [List.mem_singleton] at ha
      subst ha
      simp)
  refine ⟨hN, hW, hP, ?_⟩
  simp only [List.nil_append]
  rw [htail]
  rfl

/-- Witness for `applyRipple_spec`: the ripple from the origin cell
`(0, 0)` schedules the origin first at depth `0`, and its schedule has
pairwise-distinct coordinates. -/
theorem applyRipple_spec_witness :
    ((applyRipple 0 0).map (fun s => (s.x, s.y))).Nodup ∧
    (applyRipple 0 0).head? = some ⟨0, 0, 0, 1⟩ := by
  have h := applyRipple_spec 0 0 (le_refl 0) (by norm_num [GRID_SIZE])
    (le_refl 0) (by norm_num [GRID_SIZE])
  exact ⟨h.1, h.2.2.2⟩

/-! ## Glyph sampler (C3, C4) -/

/-- A cell kept by the coverage downsampler (`PixelGrid.tsx:110-116`). -/
structure DownsampledCell where
  cellIndex : ℕ
  coverage : ℚ
  x : ℕ
  y : ℕ
  color : ℚ × ℚ × ℚ
deriving DecidableEq

/-- `TextData` (`PixelGrid.tsx:297-303`); the flat `colors` array stores
three components per cell at offsets `3*i`, `3*i+1`, `3*i+2`. -/
structure TextData where
  mask : ℕ → ℚ
  colors : ℕ → ℚ
  revealRatios : ℕ → ℚ
  cellIndices : List ℕ
  cellIndexLookup : ℕ → ℤ

/-- The per-cell sampling loop of `downsampleCanvasCoverage`
(`PixelGrid.tsx:151-180`): over the `scale × scale` source block (skipping
rows/columns beyond the canvas), count samples, count covered pixels
(those with `max(R,G,B)/255` at or above the alpha threshold) and sum the
covered pixels' channels.  Result:
`(positiveCount, sampleCount, rSum, gSum, bSum)`. -/
def cellSampleStats (imageData : ℕ → ℕ) (canvasWidth canvasHeight scale : ℕ)
    (alphaThreshold : ℚ) (gridX gridY : ℕ) : ℕ × ℕ × ℕ × ℕ × ℕ :=
  (List.range scale).foldl (fun acc sy =>
    let pixelY := gridY * scale + sy
    if canvasHeight ≤ pixelY then acc
    else (List.range scale).foldl (fun acc2 sx =>
      let pixelX := gridX * scale + sx
      if canvasWidth ≤ pixelX then acc2
      else
        let pixelIndex := (pixelY * canvasWidth + pixelX) * 4
        let r := imageData pixelIndex
        let g := imageData (pixelIndex + 1)
        let b := imageData (pixelIndex + 2)
        let intensity : ℚ := (max r (max g b) : ℕ) / 255
        if alphaThreshold ≤ intensity then
          (acc2.1 + 1, acc2.2.1 + 1, acc2.2.2.1 + r, acc2.2.2.2.1 + g, acc2.2.2.2.2 + b)
        else (acc2.1, acc2.2.1 + 1, acc2.2.2.1, acc2.2.2.2.1, acc2.2.2.2.2)) acc)
    (0, 0, 0, 0, 0)

/-- `downsampleCanvasCoverage` (`PixelGrid.tsx:137-203`): for each grid
cell, sample its block; skip cells with no samples or coverage below the
threshold; otherwise keep the cell with its average covered color, and
track the maximum kept coverage (initially `0`). -/
def downsampleCanvasCoverage (imageData : ℕ → ℕ)
    (canvasWidth canvasHeight gridSize scale : ℕ)
    (alphaThreshold coverageThreshold : ℚ) : List DownsampledCell × ℚ :=
  let cells := (List.range gridSize).flatMap (fun gridY =>
    (List.range gridSize).filterMap (fun gridX =>
      let stats := cellSampleStats imageData canvasWidth canvasHeight scale
        alphaThreshold gridX gridY
      if stats.2.1 = 0 then none
      else
        let coverage : ℚ := (stats.1 : ℚ) / (stats.2.1 : ℚ)
        if coverage < coverageThreshold then none
        else some
          { cellIndex := gridY * gridSize + gridX
            coverage := coverage
            x := gridX
            y := gridY
            color := ((jsRound ((stats.2.2.1 : ℚ) / (max stats.1 1 : ℕ)) : ℚ),
                      (jsRound ((stats.2.2.2.1 : ℚ) / (max stats.1 1 : ℕ)) : ℚ),
                      (jsRound ((stats.2.2.2.2 : ℚ) / (max stats.1 1 : ℕ)) : ℚ)) }))
  (cells, cells.foldl (fun m c => max m c.coverage) 0)

/-- `createFallbackTextData` (`PixelGrid.tsx:254-295`): the deterministic
horizontal stripe band over rows `floor(0.3*GRID_SIZE)` to
`ceil(0.7*GRID_SIZE)`, gradient-colored left to right; all other cells get
the default color, zero mask and reveal ratio `1`.  The per-cell values
are given pointwise; `cellIndices` lists the stripe cells in the source's
row-major push order and `cellIndexLookup` holds each stripe cell's
position in that list. -/
def createFallbackTextData : TextData :=
  let minStripe := Int.toNat ⌊(GRID_SIZE : ℚ) * (3/10)⌋
  let maxStripe := Int.toNat ⌈(GRID_SIZE : ℚ) * (7/10)⌉
  let stripe := fun (i : ℕ) =>
    i < TOTAL_CELLS ∧ minStripe ≤ i / GRID_SIZE ∧ i / GRID_SIZE ≤ maxStripe
  { mask := fun i => if stripe i then 1 else 0
    colors := fun n =>
      let i := n / 3
      let comp := n % 3
      let c :=
        if stripe i then sampleGradient ((i % GRID_SIZE : ℕ) / ((GRID_SIZE : ℚ) - 1))
        else DEFAULT_COLOR
      if comp = 0 then c.1 else if comp = 1 then c.2.1 else c.2.2
    revealRatios := fun i =>
      if stripe i then ((i % GRID_SIZE : ℕ) : ℚ) / ((GRID_SIZE : ℚ) - 1) else 1
    cellIndices := (List.range GRID_SIZE).flatMap (fun y =>
      if minStripe ≤ y ∧ y ≤ maxStripe then
        (List.range GRID_SIZE).map (fun x => y * GRID_SIZE + x)
      else [])
    cellIndexLookup := fun i =>
      if stripe i then ((i / GRID_SIZE - minStripe) * GRID_SIZE + i % GRID_SIZE : ℤ)
      else -1 }

/-- Integer clamp (`clamp` applied to integer-valued quantities in the
recentering step). -/
def intClamp (v lo hi : ℤ) : ℤ := min hi (max lo v)

/-- `minCells = Math.floor(GRID_SIZE * GRID_SIZE * MIN_CELLS_RATIO)`
(`PixelGrid.tsx:410`). -/
def minCells : ℕ := Int.toNat ⌊((GRID_SIZE : ℚ) * (GRID_SIZE : ℚ)) * MIN_CELLS_FRAC⌋

/-- `maxCells = Math.floor(GRID_SIZE * GRID_SIZE * MAX_CELLS_RATIO)`
(`PixelGrid.tsx:411`). -/
def maxCells : ℕ := Int.toNat ⌊((GRID_SIZE : ℚ) * (GRID_SIZE : ℚ)) * MAX_CELLS_FRAC⌋

/-- `keepCount = clamp(cells.length, minCells, maxCells)`
(`PixelGrid.tsx:412`). -/
def keepCountOf (len : ℕ) : ℕ := min maxCells (max minCells len)

/-- A junk cell used as the (never hit) out-of-range default of the cutoff
index access. -/
def defaultCell : DownsampledCell := ⟨0, 0, 0, 0, (0, 0, 0)⟩

/-- `cells.sort((a, b) => b.coverage - a.coverage)` (`PixelGrid.tsx:408`):
stable sort, coverage descending. -/
def sortByCoverageDesc (cells : List DownsampledCell) : List DownsampledCell :=
  cells.mergeSort (fun a b => decide (b.coverage ≤ a.coverage))

/-- The coverage cutoff (`PixelGrid.tsx:413`). -/
def cutoffOf (cells : List DownsampledCell) : ℚ :=
  let sorted := sortByCoverageDesc cells
  max COVERAGE_THRESHOLD
    ((sorted.getD (min (keepCountOf cells.length - 1) (cells.length - 1))
      defaultCell).coverage)

/-- `keptCells` (`PixelGrid.tsx:415-417`): the sorted cells at or above the
cutoff, re-sorted by `x` (then `y`) ascending. -/
def keptCellsOf (cells : List DownsampledCell) : List DownsampledCell :=
  ((sortByCoverageDesc cells).filter
    (fun c => decide (cutoffOf cells ≤ c.coverage))).mergeSort
    (fun a b => decide (a.x < b.x ∨ (a.x = b.x ∧ a.y ≤ b.y)))

/-- Bounding box and offsets of the kept cells
(`PixelGrid.tsx:419-442`). -/
def selectGeom (kept : List DownsampledCell) : ℤ × ℤ × ℤ × ℤ × ℤ × ℤ :=
  let minX := kept.foldl (fun acc c => min acc (c.x : ℤ)) ((GRID_SIZE : ℤ) - 1)
  let maxX := kept.foldl (fun acc c => max acc (c.x : ℤ)) 0
  let minY := kept.foldl (fun acc c => min acc (c.y : ℤ)) ((GRID_SIZE : ℤ) - 1)
  let maxY := kept.foldl (fun acc c => max acc (c.y : ℤ)) 0
  let width := max 1 (maxX - minX + 1)
  let height := max 1 (maxY - minY + 1)
  let maxOffsetX := max 0 ((GRID_SIZE : ℤ) - width)
  let preferredOffsetX := ((GRID_SIZE : ℤ) - width).fdiv 2
  let offsetX := intClamp preferredOffsetX (min HORIZONTAL_MARGIN_CELLS maxOffsetX)
    maxOffsetX
  let verticalMarginCells := ⌊(GRID_SIZE : ℚ) * VERTICAL_MARGIN_FRAC⌋
  let maxOffsetY := max 0 ((GRID_SIZE : ℤ) - height)
  let preferredOffsetY := ((GRID_SIZE : ℤ) - height).fdiv 2
  let offsetY := intClamp preferredOffsetY (min verticalMarginCells maxOffsetY)
    maxOffsetY
  (minX, minY, offsetX, offsetY, width, height)

/-- The grid cell a kept cell is written to after recentering
(`PixelGrid.tsx:447-449`). -/
def selectTarget (minX minY offsetX offsetY : ℤ) (c : DownsampledCell) : ℕ :=
  (intClamp ((c.y : ℤ) - minY + offsetY) 0 ((GRID_SIZE : ℤ) - 1) * (GRID_SIZE : ℤ)
    + intClamp ((c.x : ℤ) - minX + offsetX) 0 ((GRID_SIZE : ℤ) - 1)).toNat

/-- Mutable state of the kept-cell placement loop. -/
structure SelectState where
  mask : ℕ → ℚ
  colors : ℕ → ℚ
  revealRatios : ℕ → ℚ
  cellIndices : List ℕ
  cellIndexLookup : ℕ → ℤ

/-- The body of `keptCells.forEach` (`PixelGrid.tsx:446-471`): skip when
the target cell already carries at least this normalized coverage;
otherwise write color, mask and reveal ratio, and (when the target is
fresh) record it in the lookup table and the cell-index list. -/
def selectStep (minX minY offsetX offsetY width : ℤ) (maxCoverage : ℚ)
    (st : SelectState) (c : DownsampledCell) : SelectState :=
  let cellIndex := selectTarget minX minY offsetX offsetY c
  let normalizedCoverage := clamp ((c.coverage / maxCoverage) * MAX_ALPHA_MULTIPLIER) 0 1
  if normalizedCoverage ≤ st.mask cellIndex then st
  else
    let offset := cellIndex * 3
    let ratio : ℚ := if 1 < width then (((c.x : ℤ) - minX : ℤ) : ℚ) / ((width : ℚ) - 1)
      else 1/2
    let st1 : SelectState :=
      { st with
        colors := Function.update (Function.update (Function.update st.colors
          offset c.color.1) (offset + 1) c.color.2.1) (offset + 2) c.color.2.2
        mask := Function.update st.mask cellIndex normalizedCoverage
        revealRatios := Function.update st.revealRatios cellIndex ratio }
    if st1.cellIndexLookup cellIndex = -1 then
      { st1 with
        cellIndexLookup := Function.update st1.cellIndexLookup cellIndex
          (st1.cellIndices.length : ℤ)
        cellIndices := st1.cellIndices ++ [cellIndex] }
    else st1

/-- The non-fallback tail of `createTextData` (`PixelGrid.tsx:408-487`,
after a successful downsample): rank by coverage, cut off, recenter and
place the kept cells, then give every unused cell the background gradient
color, zero mask and an absolute-x reveal ratio. -/
def selectCells (cells : List DownsampledCell) (maxCoverage : ℚ) : TextData :=
  let kept := keptCellsOf cells
  let geom := selectGeom kept
  let minX := geom.1
  let minY := geom.2.1
  let offsetX := geom.2.2.1
  let offsetY := geom.2.2.2.1
  let width := geom.2.2.2.2.1
  let st0 : SelectState :=
    { mask := fun _ => 0
      colors := fun _ => 0
      revealRatios := fun _ => 1
      cellIndices := []
      cellIndexLookup := fun _ => -1 }
  let st := kept.foldl (selectStep minX minY offsetX offsetY width maxCoverage) st0
  { mask := fun i =>
      if i < TOTAL_CELLS ∧ st.cellIndexLookup i = -1 then 0 else st.mask i
    colors := fun n =>
      let i := n / 3
      let comp := n % 3
      if i < TOTAL_CELLS ∧ st.cellIndexLookup i = -1 then
        let c := sampleGradient (((i % GRID_SIZE : ℕ) : ℚ) / ((GRID_SIZE : ℚ) - 1))
        if comp = 0 then c.1 else if comp = 1 then c.2.1 else c.2.2
      else st.colors n
    revealRatios := fun i =>
      if i < TOTAL_CELLS ∧ st.cellIndexLookup i = -1 then
        ((i % GRID_SIZE : ℕ) : ℚ) / ((GRID_SIZE : ℚ) - 1)
      else st.revealRatios i
    cellIndices := st.cellIndices
    cellIndexLookup := st.cellIndexLookup }

/-- `createTextData` (`PixelGrid.tsx:343-632`) over its environment: `none`
models a missing `document` / 2D context / text or pixel API (fallback,
lines 354-365); `some (cells, maxCoverage)` models a successful
`getImageData` + downsample, falling back when no cell qualified (line
404); otherwise the selection runs.  The in-source fatal assertion
`'text sampling produced empty mask'` (line 489) fires exactly when the
returned `cellIndices` is empty. -/
def createTextDataCore (sample : Option (List DownsampledCell × ℚ)) : TextData :=
  match sample with
  | none => createFallbackTextData
  | some s =>
    if s.1.length = 0 ∨ s.2 ≤ 0 then createFallbackTextData
    else selectCells s.1 s.2

/-- The guarantees the downsampler gives about its output (proved below in
`downsample_valid`): every kept cell is at or above the coverage
threshold, has coverage at most `1` and at most the returned maximum, its
coordinates lie in the grid with the row-major index law, and the kept
cell indices are pairwise distinct. -/
def downsampleValid (cells : List DownsampledCell) (maxCoverage : ℚ) : Prop :=
  (∀ c ∈ cells, COVERAGE_THRESHOLD ≤ c.coverage ∧ c.coverage ≤ 1 ∧
    c.coverage ≤ maxCoverage ∧ c.x < GRID_SIZE ∧ c.y < GRID_SIZE ∧
    c.cellIndex = c.y * GRID_SIZE + c.x) ∧
  (cells.map (fun c => c.cellIndex)).Nodup

/-! ### Arithmetic facts about the keep-count constants -/

lemma minCells_eq : minCells = 192 := by
  have h : (⌊((GRID_SIZE : ℚ) * (GRID_SIZE : ℚ)) * MIN_CELLS_FRAC⌋ : ℤ) = 192 := by
    norm_num [GRID_SIZE, MIN_CELLS_FRAC, Int.floor_eq_iff]
  rw [minCells, h]; rfl

lemma maxCells_eq : maxCells = 1920 := by
  have h : (⌊((GRID_SIZE : ℚ) * (GRID_SIZE : ℚ)) * MAX_CELLS_FRAC⌋ : ℤ) = 1920 := by
    norm_num [GRID_SIZE, MAX_CELLS_FRAC, Int.floor_eq_iff]
  rw [maxCells, h]; rfl

/-! ### Generic fold helpers -/

lemma foldl_preserve {α β : Type} (P : β → Prop) (step : β → α → β)
    (hstep : ∀ b a, P b → P (step b a)) :
    ∀ (l : List α) (b : β), P b → P (l.foldl step b) := by
  intro l
  induction l with
  | nil => intro b hb; exact hb
  | cons a t ih => intro b hb; exact ih (step b a) (hstep b a hb)

lemma foldl_min_le_init {α : Type} [LinearOrder α] (f : β → α) :
    ∀ (l : List β) (init : α), l.foldl (fun acc c => min acc (f c)) init ≤ init := by
  intro l
  induction l with
  | nil => intro init; exact le_refl _
  | cons a t ih =>
    intro init
    exact le_trans (ih (min init (f a))) (min_le_left _ _)

lemma foldl_min_le_mem {α : Type} [LinearOrder α] (f : β → α) :
    ∀ (l : List β) (init : α) (a : β), a ∈ l →
      l.foldl (fun acc c => min acc (f c)) init ≤ f a := by
  intro l
  induction l with
  | nil => intro _ a ha; cases ha
  | cons b t ih =>
    intro init a ha
    rcases List.mem_cons.mp ha with h | h
    · subst h
      exact le_trans (foldl_min_le_init f t (min init (f a))) (min_le_right _ _)
    · exact ih (min init (f b)) a h

lemma le_foldl_min {α : Type} [LinearOrder α] (f : β → α) (lo : α) :
    ∀ (l : List β) (init : α), lo ≤ init → (∀ a ∈ l, lo ≤ f a) →
      lo ≤ l.foldl (fun acc c => min acc (f c)) init := by
  intro l
  induction l with
  | nil => intro init h0 _; exact h0
  | cons a t ih =>
    intro init h0 hall
    exact ih (min init (f a)) (le_min h0 (hall a (List.mem_cons_self a t)))
      (fun b hb => hall b (List.mem_cons_of_mem a hb))

lemma init_le_foldl_max {α : Type} [LinearOrder α] (f : β → α) :
    ∀ (l : List β) (init : α), init ≤ l.foldl (fun acc c => max acc (f c)) init := by
  intro l
  induction l with
  | nil => intro init; exact le_refl _
  | cons a t ih =>
    intro init
    exact le_trans (le_max_left _ _) (ih (max init (f a)))

lemma mem_le_foldl_max {α : Type} [LinearOrder α] (f : β → α) :
    ∀ (l : List β) (init : α) (a : β), a ∈ l →
      f a ≤ l.foldl (fun acc c => max acc (f c)) init := by
  intro l
  induction l with
  | nil => intro _ a ha; cases ha
  | cons b t ih =>
    intro init a ha
    rcases List.mem_cons.mp ha with h | h
    · subst h
      exact le_trans (le_max_right _ _) (init_le_foldl_max f t (max init (f a)))
    · exact ih (max init (f b)) a h

lemma foldl_max_le {α : Type} [LinearOrder α] (f : β → α) (hi : α) :
    ∀ (l : List β) (init : α), init ≤ hi → (∀ a ∈ l, f a ≤ hi) →
      l.foldl (fun acc c => max acc (f c)) init ≤ hi := by
  intro l
  induction l with
  | nil => intro init h0 _; exact h0
  | cons a t ih =>
    intro init h0 hall
    exact ih (max init (f a)) (max_le h0 (hall a (List.mem_cons_self a t)))
      (fun b hb => hall b (List.mem_cons_of_mem a hb))

/-! ### Properties of the coverage ranking and cutoff -/

lemma sortByCoverageDesc_perm (cells : List DownsampledCell) :
    (sortByCoverageDesc cells).Perm cells :=
  List.mergeSort_perm cells _

lemma sortByCoverageDesc_sorted (cells : List DownsampledCell) :
    (sortByCoverageDesc cells).Pairwise (fun a b => b.coverage ≤ a.coverage) := by
  have h := @List.sorted_mergeSort DownsampledCell
    (fun a b => decide (b.coverage ≤ a.coverage))
    (fun a b c hab hbc => by
      rw [decide_eq_true_eq] at hab hbc ⊢
      exact le_trans hbc hab)
    (fun a b => by
      rcases le_total b.coverage a.coverage with h | h
      · simp [h]
      · simp [h])
    cells
  exact h.imp_of_mem (fun _ _ hr => by
    rw [decide_eq_true_eq] at hr
    exact hr)

lemma keptCellsOf_perm (cells : List DownsampledCell) :
    (keptCellsOf cells).Perm ((sortByCoverageDesc cells).filter
      (fun c => decide (cutoffOf cells ≤ c.coverage))) :=
  List.mergeSort_perm _ _

lemma keptCellsOf_length (cells : List DownsampledCell) :
    (keptCellsOf cells).length = ((sortByCoverageDesc cells).filter
      (fun c => decide (cutoffOf cells ≤ c.coverage))).length :=
  (keptCellsOf_perm cells).length_eq

lemma keptCellsOf_length_le (cells : List DownsampledCell) :
    (keptCellsOf cells).length ≤ cells.length := by
  rw [keptCellsOf_length]
  calc ((sortByCoverageDesc cells).filter _).length
      ≤ (sortByCoverageDesc cells).length := List.length_filter_le _ _
    _ = cells.length := (sortByCoverageDesc_perm cells).length_eq

lemma cutoffOf_const (cells : List DownsampledCell) (q : ℚ)
    (hq : COVERAGE_THRESHOLD ≤ q) (hall : ∀ c ∈ cells, c.coverage = q)
    (hne : cells ≠ []) : cutoffOf cells = q := by
  have hlen : 0 < cells.length := List.length_pos.mpr hne
  have hslen : (sortByCoverageDesc cells).length = cells.length :=
    (sortByCoverageDesc_perm cells).length_eq
  have hidx : min (keepCountOf cells.length - 1) (cells.length - 1) <
      (sortByCoverageDesc cells).length := by
    rw [hslen]; omega
  rw [cutoffOf]
  rw [List.getD_eq_getElem _ _ hidx]
  have hmem : (sortByCoverageDesc cells)[min (keepCountOf cells.length - 1)
      (cells.length - 1)] ∈ cells :=
    (sortByCoverageDesc_perm cells).mem_iff.mp (List.getElem_mem _)
  rw [hall _ hmem]
  exact max_eq_right hq

lemma keptCellsOf_const_length (cells : List DownsampledCell) (q : ℚ)
    (hq : COVERAGE_THRESHOLD ≤ q) (hall : ∀ c ∈ cells, c.coverage = q)
    (hne : cells ≠ []) : (keptCellsOf cells).length = cells.length := by
  rw [keptCellsOf_length]
  have hfull : (sortByCoverageDesc cells).filter
      (fun c => decide (cutoffOf cells ≤ c.coverage)) = sortByCoverageDesc cells := by
    apply List.filter_eq_self.mpr
    intro c hc
    rw [decide_eq_true_eq, cutoffOf_const cells q hq hall hne,
      hall c ((sortByCoverageDesc_perm cells).mem_iff.mp hc)]
  rw [hfull]
  exact (sortByCoverageDesc_perm cells).length_eq

lemma sorted_desc_le (cells : List DownsampledCell) {i j : ℕ}
    (hi : i < (sortByCoverageDesc cells).length)
    (hj : j < (sortByCoverageDesc cells).length) (hij : i ≤ j) :
    ((sortByCoverageDesc cells).get ⟨j, hj⟩).coverage ≤
      ((sortByCoverageDesc cells).get ⟨i, hi⟩).coverage := by
  rcases lt_or_eq_of_le hij with hlt | heq
  · have hp := List.pairwise_iff_get.mp (sortByCoverageDesc_sorted cells)
      ⟨i, hi⟩ ⟨j, hj⟩ hlt
    exact hp
  · subst heq
    exact le_refl _

lemma keptCellsOf_length_lower (cells : List DownsampledCell)
    (hcov : ∀ c ∈ cells, COVERAGE_THRESHOLD ≤ c.coverage) :
    min minCells cells.length ≤ (keptCellsOf cells).length := by
  rcases eq_or_ne cells [] with hnil | hne
  · subst hnil
    simp
  have hlen : 0 < cells.length := List.length_pos.mpr hne
  have hslen : (sortByCoverageDesc cells).length = cells.length :=
    (sortByCoverageDesc_perm cells).length_eq
  have hkc192 : 192 ≤ keepCountOf cells.length := by
    rw [keepCountOf, minCells_eq, maxCells_eq]
    omega
  have hkey : ∀ c ∈ (sortByCoverageDesc cells).take
      (min (keepCountOf cells.length) cells.length),
      decide (cutoffOf cells ≤ c.coverage) = true := by
    intro c hc
    rw [decide_eq_true_eq]
    obtain ⟨i, hgi⟩ := List.mem_iff_get.mp hc
    have him : (i : ℕ) < min (keepCountOf cells.length) cells.length := by
      have hT := List.length_take (min (keepCountOf cells.length) cells.length)
        (sortByCoverageDesc cells)
      have := i.isLt
      omega
    have hilt : (i : ℕ) < (sortByCoverageDesc cells).length := by omega
    have hci : c = (sortByCoverageDesc cells).get ⟨(i : ℕ), hilt⟩ := by
      rw [← hgi]
      simp [List.get_eq_getElem, List.getElem_take]
    have hidxlt : min (keepCountOf cells.length - 1) (cells.length - 1) <
        (sortByCoverageDesc cells).length := by omega
    have h1 : COVERAGE_THRESHOLD ≤ c.coverage := by
      apply hcov
      rw [hci]
      exact (sortByCoverageDesc_perm cells).mem_iff.mp (List.getElem_mem _)
    have h2 : ((sortByCoverageDesc cells).get ⟨min (keepCountOf cells.length - 1)
        (cells.length - 1), hidxlt⟩).coverage ≤ c.coverage := by
      rw [hci]
      exact sorted_desc_le cells hilt hidxlt (by omega)
    rw [cutoffOf, List.getD_eq_getElem _ _ hidxlt]
    exact max_le h1 h2
  have htake : ((sortByCoverageDesc cells).take
      (min (keepCountOf cells.length) cells.length)).filter
      (fun c => decide (cutoffOf cells ≤ c.coverage)) =
      (sortByCoverageDesc cells).take (min (keepCountOf cells.length) cells.length) :=
    List.filter_eq_self.mpr hkey
  have hsub := (List.take_sublist (min (keepCountOf cells.length) cells.length)
    (sortByCoverageDesc cells)).filter (fun c => decide (cutoffOf cells ≤ c.coverage))
  have hlenle : min (keepCountOf cells.length) cells.length ≤
      ((sortByCoverageDesc cells).filter
        (fun c => decide (cutoffOf cells ≤ c.coverage))).length := by
    have hx := hsub.length_le
    rw [htake, List.length_take, hslen] at hx
    omega
  have h192 : minCells = 192 := minCells_eq
  rw [keptCellsOf_length]
  omega

lemma keptCellsOf_length_noties (cells : List DownsampledCell)
    (hnd : (cells.map (fun c => c.coverage)).Nodup) :
    (keptCellsOf cells).length ≤ maxCells := by
  rw [keptCellsOf_length]
  have hslen : (sortByCoverageDesc cells).length = cells.length :=
    (sortByCoverageDesc_perm cells).length_eq
  have hkcle : keepCountOf cells.length ≤ maxCells := by
    rw [keepCountOf]
    omega
  by_cases hcase : cells.length ≤ keepCountOf cells.length
  · have := List.length_filter_le
      (fun c => decide (cutoffOf cells ≤ c.coverage)) (sortByCoverageDesc cells)
    omega
  push_neg at hcase
  have hkc192 : 192 ≤ keepCountOf cells.length := by
    rw [keepCountOf, minCells_eq, maxCells_eq]
    omega
  have hidxlt : min (keepCountOf cells.length - 1) (cells.length - 1) <
      (sortByCoverageDesc cells).length := by omega
  have hpair : (sortByCoverageDesc cells).Pairwise
      (fun a b => a.coverage ≠ b.coverage) := by
    apply List.pairwise_map.mp
    exact (((sortByCoverageDesc_perm cells).map
      (fun c => c.coverage)).nodup_iff).mpr hnd
  have hdrop : ∀ c ∈ (sortByCoverageDesc cells).drop (keepCountOf cells.length),
      ¬ (decide (cutoffOf cells ≤ c.coverage) = true) := by
    intro c hc
    simp only [decide_eq_true_eq]
    rw [not_le]
    obtain ⟨i, hgi⟩ := List.mem_iff_get.mp hc
    have hT := List.length_drop (keepCountOf cells.length) (sortByCoverageDesc cells)
    have hIi := i.isLt
    have hj : keepCountOf cells.length + (i : ℕ) <
        (sortByCoverageDesc cells).length := by omega
    have hci : c = (sortByCoverageDesc cells).get
        ⟨keepCountOf cells.length + (i : ℕ), hj⟩ := by
      rw [← hgi]
      simp [List.get_eq_getElem, List.getElem_drop]
    have hle : c.coverage ≤ ((sortByCoverageDesc cells).get ⟨min
        (keepCountOf cells.length - 1) (cells.length - 1), hidxlt⟩).coverage := by
      rw [hci]
      exact sorted_desc_le cells hidxlt hj (by omega)
    have hneq : ((sortByCoverageDesc cells).get ⟨min (keepCountOf cells.length - 1)
        (cells.length - 1), hidxlt⟩).coverage ≠ c.coverage := by
      rw [hci]
      exact List.pairwise_iff_get.mp hpair ⟨_, hidxlt⟩ ⟨_, hj⟩ (by
        simp only [Fin.mk_lt_mk]
        omega)
    have hstrict : c.coverage < ((sortByCoverageDesc cells).get ⟨min
        (keepCountOf cells.length - 1) (cells.length - 1), hidxlt⟩).coverage :=
      lt_of_le_of_ne hle (fun h => hneq h.symm)
    rw [cutoffOf, List.getD_eq_getElem _ _ hidxlt]
    exact lt_of_lt_of_le hstrict (le_max_right _ _)
  have hsplit : (sortByCoverageDesc cells).filter
      (fun c => decide (cutoffOf cells ≤ c.coverage)) =
      ((sortByCoverageDesc cells).take (keepCountOf cells.length)).filter
        (fun c => decide (cutoffOf cells ≤ c.coverage)) ++
      ((sortByCoverageDesc cells).drop (keepCountOf cells.length)).filter
        (fun c => decide (cutoffOf cells ≤ c.coverage)) := by
    conv_lhs => rw [← List.take_append_drop (keepCountOf cells.length)
      (sortByCoverageDesc cells)]
    rw [List.filter_append]
  have hdnil : ((sortByCoverageDesc cells).drop (keepCountOf cells.length)).filter
      (fun c => decide (cutoffOf cells ≤ c.coverage)) = [] :=
    List.filter_eq_nil_iff.mpr hdrop
  rw [hsplit, hdnil, List.length_append]
  have htle := List.length_filter_le (fun c => decide (cutoffOf cells ≤ c.coverage))
    ((sortByCoverageDesc cells).take (keepCountOf cells.length))
  have hTT := List.length_take (keepCountOf cells.length) (sortByCoverageDesc cells)
  simp only [List.length_nil]
  omega

/-! ### Recentering geometry: inside the grid the clamps are inactive -/

lemma selectOffset_core (minC maxC offC gc m : ℤ)
    (h1 : minC ≤ gc) (h2 : 0 ≤ minC) (h3 : gc ≤ maxC) (h4 : maxC ≤ 97) (hm : 0 ≤ m)
    (hoff : offC = intClamp (((98 : ℤ) - max 1 (maxC - minC + 1)).fdiv 2)
      (min m (max 0 ((98 : ℤ) - max 1 (maxC - minC + 1))))
      (max 0 ((98 : ℤ) - max 1 (maxC - minC + 1)))) :
    0 ≤ gc - minC + offC ∧ gc - minC + offC ≤ 97 := by
  rw [intClamp] at hoff
  omega

lemma intClamp_id (v : ℤ) (h0 : 0 ≤ v) (h97 : v ≤ (GRID_SIZE : ℤ) - 1) :
    intClamp v 0 ((GRID_SIZE : ℤ) - 1) = v := by
  have hg : (GRID_SIZE : ℤ) = 98 := by norm_num [GRID_SIZE]
  rw [intClamp]
  omega

lemma selectTarget_eq (kept : List DownsampledCell)
    (hb : ∀ c ∈ kept, c.x < GRID_SIZE ∧ c.y < GRID_SIZE)
    (c : DownsampledCell) (hc : c ∈ kept) :
    0 ≤ (c.x : ℤ) - (selectGeom kept).1 + (selectGeom kept).2.2.1 ∧
    (c.x : ℤ) - (selectGeom kept).1 + (selectGeom kept).2.2.1 ≤ 97 ∧
    0 ≤ (c.y : ℤ) - (selectGeom kept).2.1 + (selectGeom kept).2.2.2.1 ∧
    (c.y : ℤ) - (selectGeom kept).2.1 + (selectGeom kept).2.2.2.1 ≤ 97 ∧
    selectTarget (selectGeom kept).1 (selectGeom kept).2.1 (selectGeom kept).2.2.1
      (selectGeom kept).2.2.2.1 c =
      (((c.y : ℤ) - (selectGeom kept).2.1 + (selectGeom kept).2.2.2.1) * (GRID_SIZE : ℤ)
        + ((c.x : ℤ) - (selectGeom kept).1 + (selectGeom kept).2.2.1)).toNat := by
  have hg : (GRID_SIZE : ℤ) = 98 := by norm_num [GRID_SIZE]
  have hminXdef : (selectGeom kept).1 =
      kept.foldl (fun acc c => min acc ((c.x : ℤ))) ((GRID_SIZE : ℤ) - 1) := rfl
  have hminYdef : (selectGeom kept).2.1 =
      kept.foldl (fun acc c => min acc ((c.y : ℤ))) ((GRID_SIZE : ℤ) - 1) := rfl
  have hminX_le : (selectGeom kept).1 ≤ (c.x : ℤ) := by
    rw [hminXdef]
    exact foldl_min_le_mem (fun a => ((a.x : ℤ))) kept _ c hc
  have hminX_0 : 0 ≤ (selectGeom kept).1 := by
    rw [hminXdef]
    exact le_foldl_min (fun a => ((a.x : ℤ))) 0 kept ((GRID_SIZE : ℤ) - 1) (by omega)
      (fun a _ => Int.natCast_nonneg a.x)
  have hmaxX_ge : (c.x : ℤ) ≤ kept.foldl (fun acc c => max acc ((c.x : ℤ))) 0 :=
    mem_le_foldl_max (fun a => ((a.x : ℤ))) kept 0 c hc
  have hmaxX_97 : kept.foldl (fun acc c => max acc ((c.x : ℤ))) 0 ≤ 97 :=
    foldl_max_le (fun a => ((a.x : ℤ))) 97 kept 0 (by norm_num) (fun a ha => by
      show (a.x : ℤ) ≤ 97
      have := (hb a ha).1
      have h98 : GRID_SIZE = 98 := by norm_num [GRID_SIZE]
      omega)
  have hminY_le : (selectGeom kept).2.1 ≤ (c.y : ℤ) := by
    rw [hminYdef]
    exact foldl_min_le_mem (fun a => ((a.y : ℤ))) kept _ c hc
  have hminY_0 : 0 ≤ (selectGeom kept).2.1 := by
    rw [hminYdef]
    exact le_foldl_min (fun a => ((a.y : ℤ))) 0 kept ((GRID_SIZE : ℤ) - 1) (by omega)
      (fun a _ => Int.natCast_nonneg a.y)
  have hmaxY_ge : (c.y : ℤ) ≤ kept.foldl (fun acc c => max acc ((c.y : ℤ))) 0 :=
    mem_le_foldl_max (fun a => ((a.y : ℤ))) kept 0 c hc
  have hmaxY_97 : kept.foldl (fun acc c => max acc ((c.y : ℤ))) 0 ≤ 97 :=
    foldl_max_le (fun a => ((a.y : ℤ))) 97 kept 0 (by norm_num) (fun a ha => by
      show (a.y : ℤ) ≤ 97
      have := (hb a ha).2
      have h98 : GRID_SIZE = 98 := by norm_num [GRID_SIZE]
      omega)
  have hvmc : (⌊(GRID_SIZE : ℚ) * VERTICAL_MARGIN_FRAC⌋ : ℤ) = 34 := by
    norm_num [GRID_SIZE, VERTICAL_MARGIN_FRAC, Int.floor_eq_iff]
  have hoffXdef : (selectGeom kept).2.2.1 =
      intClamp ((((GRID_SIZE : ℤ)) - max 1
          (kept.foldl (fun acc c => max acc ((c.x : ℤ))) 0 -
            kept.foldl (fun acc c => min acc ((c.x : ℤ))) ((GRID_SIZE : ℤ) - 1) + 1)).fdiv 2)
        (min HORIZONTAL_MARGIN_CELLS (max 0 ((GRID_SIZE : ℤ) - max 1
          (kept.foldl (fun acc c => max acc ((c.x : ℤ))) 0 -
            kept.foldl (fun acc c => min acc ((c.x : ℤ))) ((GRID_SIZE : ℤ) - 1) + 1))))
        (max 0 ((GRID_SIZE : ℤ) - max 1
          (kept.foldl (fun acc c => max acc ((c.x : ℤ))) 0 -
            kept.foldl (fun acc c => min acc ((c.x : ℤ))) ((GRID_SIZE : ℤ) - 1) + 1))) := rfl
  have hoffYdef : (selectGeom kept).2.2.2.1 =
      intClamp ((((GRID_SIZE : ℤ)) - max 1
          (kept.foldl (fun acc c => max acc ((c.y : ℤ))) 0 -
            kept.foldl (fun acc c => min acc ((c.y : ℤ))) ((GRID_SIZE : ℤ) - 1) + 1)).fdiv 2)
        (min (⌊(GRID_SIZE : ℚ) * VERTICAL_MARGIN_FRAC⌋) (max 0 ((GRID_SIZE : ℤ) - max 1
          (kept.foldl (fun acc c => max acc ((c.y : ℤ))) 0 -
            kept.foldl (fun acc c => min acc ((c.y : ℤ))) ((GRID_SIZE : ℤ) - 1) + 1))))
        (max 0 ((GRID_SIZE : ℤ) - max 1
          (kept.foldl (fun acc c => max acc ((c.y : ℤ))) 0 -
            kept.foldl (fun acc c => min acc ((c.y : ℤ))) ((GRID_SIZE : ℤ) - 1) + 1))) := rfl
  have hX : 0 ≤ (c.x : ℤ) - (selectGeom kept).1 + (selectGeom kept).2.2.1 ∧
      (c.x : ℤ) - (selectGeom kept).1 + (selectGeom kept).2.2.1 ≤ 97 := by
    apply selectOffset_core ((selectGeom kept).1)
      (kept.foldl (fun acc c => max acc ((c.x : ℤ))) 0) _ _ HORIZONTAL_MARGIN_CELLS
      hminX_le hminX_0 hmaxX_ge hmaxX_97 (by norm_num [HORIZONTAL_MARGIN_CELLS])
    rw [hoffXdef, hminXdef, hg]
  have hY : 0 ≤ (c.y : ℤ) - (selectGeom kept).2.1 + (selectGeom kept).2.2.2.1 ∧
      (c.y : ℤ) - (selectGeom kept).2.1 + (selectGeom kept).2.2.2.1 ≤ 97 := by
    apply selectOffset_core ((selectGeom kept).2.1)
      (kept.foldl (fun acc c => max acc ((c.y : ℤ))) 0) _ _
      (⌊(GRID_SIZE : ℚ) * VERTICAL_MARGIN_FRAC⌋)
      hminY_le hminY_0 hmaxY_ge hmaxY_97 (by rw [hvmc]; norm_num)
    rw [hoffYdef, hminYdef, hg]
  refine ⟨hX.1, hX.2, hY.1, hY.2, ?_⟩
  rw [selectTarget]
  rw [intClamp_id _ hY.1 (by omega), intClamp_id _ hX.1 (by omega)]

lemma selectTarget_inj (kept : List DownsampledCell)
    (hb : ∀ c ∈ kept, c.x < GRID_SIZE ∧ c.y < GRID_SIZE)
    (c c' : DownsampledCell) (hc : c ∈ kept) (hc' : c' ∈ kept)
    (heq : selectTarget (selectGeom kept).1 (selectGeom kept).2.1
        (selectGeom kept).2.2.1 (selectGeom kept).2.2.2.1 c =
      selectTarget (selectGeom kept).1 (selectGeom kept).2.1
        (selectGeom kept).2.2.1 (selectGeom kept).2.2.2.1 c') :
    c.x = c'.x ∧ c.y = c'.y := by
  have h1 := selectTarget_eq kept hb c hc
  have h2 := selectTarget_eq kept hb c' hc'
  have hg : (GRID_SIZE : ℤ) = 98 := by norm_num [GRID_SIZE]
  rw [h1.2.2.2.2, h2.2.2.2.2, hg] at heq
  obtain ⟨hx1, hx2, hy1, hy2, -⟩ := h1
  obtain ⟨hx1', hx2', hy1', hy2', -⟩ := h2
  omega

lemma keptCellsOf_subset (cells : List DownsampledCell) :
    ∀ c ∈ keptCellsOf cells, c ∈ cells := by
  intro c hc
  have h1 := (keptCellsOf_perm cells).mem_iff.mp hc
  have h2 := (List.mem_filter.mp h1).1
  exact (sortByCoverageDesc_perm cells).mem_iff.mp h2

lemma kept_cellIndex_nodup (cells : List DownsampledCell)
    (hnd : (cells.map (fun c => c.cellIndex)).Nodup) :
    ((keptCellsOf cells).map (fun c => c.cellIndex)).Nodup := by
  have hs : ((sortByCoverageDesc cells).map (fun c => c.cellIndex)).Nodup :=
    (((sortByCoverageDesc_perm cells).map (fun c => c.cellIndex)).nodup_iff).mpr hnd
  have hf : (((sortByCoverageDesc cells).filter
      (fun c => decide (cutoffOf cells ≤ c.coverage))).map
        (fun c => c.cellIndex)).Nodup :=
    ((List.filter_sublist (sortByCoverageDesc cells)).map
      (fun c => c.cellIndex)).nodup hs
  exact (((keptCellsOf_perm cells).map (fun c => c.cellIndex)).nodup_iff).mpr hf

lemma kept_targets_nodup (cells : List DownsampledCell) (maxCov : ℚ)
    (hv : downsampleValid cells maxCov) :
    ((keptCellsOf cells).map (fun c =>
      selectTarget (selectGeom (keptCellsOf cells)).1
        (selectGeom (keptCellsOf cells)).2.1
        (selectGeom (keptCellsOf cells)).2.2.1
        (selectGeom (keptCellsOf cells)).2.2.2.1 c)).Nodup := by
  have hb : ∀ c ∈ keptCellsOf cells, c.x < GRID_SIZE ∧ c.y < GRID_SIZE :=
    fun c hc =>
      ⟨(hv.1 c (keptCellsOf_subset cells c hc)).2.2.2.1,
       (hv.1 c (keptCellsOf_subset cells c hc)).2.2.2.2.1⟩
  have hp : (keptCellsOf cells).Pairwise (fun a b => a.cellIndex ≠ b.cellIndex) :=
    List.pairwise_map.mp (kept_cellIndex_nodup cells hv.2)
  apply List.pairwise_map.mpr
  apply hp.imp_of_mem
  intro a b ha hb' hne heqtg
  obtain ⟨hx, hy⟩ := selectTarget_inj (keptCellsOf cells) hb a b ha hb' heqtg
  apply hne
  rw [(hv.1 a (keptCellsOf_subset cells a ha)).2.2.2.2.2,
    (hv.1 b (keptCellsOf_subset cells b hb')).2.2.2.2.2, hx, hy]

/-! ### The placement fold pushes every fresh kept cell -/

lemma selectStep_fresh (minX minY offsetX offsetY width : ℤ) (maxCov : ℚ)
    (st : SelectState) (c : DownsampledCell)
    (hm : st.mask (selectTarget minX minY offsetX offsetY c) = 0)
    (hl : st.cellIndexLookup (selectTarget minX minY offsetX offsetY c) = -1)
    (hp : 0 < clamp ((c.coverage / maxCov) * MAX_ALPHA_MULTIPLIER) 0 1) :
    (selectStep minX minY offsetX offsetY width maxCov st c).cellIndices =
      st.cellIndices ++ [selectTarget minX minY offsetX offsetY c] ∧
    (∀ j, j ≠ selectTarget minX minY offsetX offsetY c →
      (selectStep minX minY offsetX offsetY width maxCov st c).mask j = st.mask j ∧
      (selectStep minX minY offsetX offsetY width maxCov st c).cellIndexLookup j =
        st.cellIndexLookup j) := by
  rw [selectStep]
  dsimp only
  rw [if_neg (by rw [hm]; exact not_le.mpr hp)]
  rw [if_pos hl]
  refine ⟨rfl, ?_⟩
  intro j hj
  exact ⟨Function.update_noteq hj _ _, Function.update_noteq hj _ _⟩

lemma selectFold_push (minX minY offsetX offsetY width : ℤ) (maxCov : ℚ) :
    ∀ (l : List DownsampledCell) (st : SelectState),
      (∀ c ∈ l, st.mask (selectTarget minX minY offsetX offsetY c) = 0 ∧
        st.cellIndexLookup (selectTarget minX minY offsetX offsetY c) = -1) →
      (l.map (fun c => selectTarget minX minY offsetX offsetY c)).Nodup →
      (∀ c ∈ l, 0 < clamp ((c.coverage / maxCov) * MAX_ALPHA_MULTIPLIER) 0 1) →
      (l.foldl (selectStep minX minY offsetX offsetY width maxCov) st).cellIndices =
        st.cellIndices ++ l.map (fun c => selectTarget minX minY offsetX offsetY c) := by
  intro l
  induction l with
  | nil =>
    intro st _ _ _
    simp
  | cons c t ih =>
    intro st hfresh hnd hpos
    rw [List.foldl_cons]
    have hstep := selectStep_fresh minX minY offsetX offsetY width maxCov st c
      (hfresh c (List.mem_cons_self c t)).1 (hfresh c (List.mem_cons_self c t)).2
      (hpos c (List.mem_cons_self c t))
    have hnotin : selectTarget minX minY offsetX offsetY c ∉
        t.map (fun c => selectTarget minX minY offsetX offsetY c) := by
      have := hnd
      rw [List.map_cons, List.nodup_cons] at this
      exact this.1
    have htail := ih (selectStep minX minY offsetX offsetY width maxCov st c)
      (fun c' hc' => by
        have hne : selectTarget minX minY offsetX offsetY c' ≠
            selectTarget minX minY offsetX offsetY c := by
          intro h
          exact hnotin (h ▸ List.mem_map_of_mem _ hc')
        have hkeep := hstep.2 _ hne
        exact ⟨hkeep.1.trans ((hfresh c' (List.mem_cons_of_mem c hc')).1),
          hkeep.2.trans ((hfresh c' (List.mem_cons_of_mem c hc')).2)⟩)
      (by
        have := hnd
        rw [List.map_cons, List.nodup_cons] at this
        exact this.2)
      (fun c' hc' => hpos c' (List.mem_cons_of_mem c hc'))
    rw [htail, hstep.1, List.map_cons, List.append_assoc, List.singleton_append]

lemma selectCells_cellIndices_length (cells : List DownsampledCell) (maxCov : ℚ)
    (hv : downsampleValid cells maxCov) (hpos : 0 < maxCov) :
    (selectCells cells maxCov).cellIndices.length = (keptCellsOf cells).length := by
  rw [selectCells]
  dsimp only
  rw [selectFold_push (selectGeom (keptCellsOf cells)).1
    (selectGeom (keptCellsOf cells)).2.1 (selectGeom (keptCellsOf cells)).2.2.1
    (selectGeom (keptCellsOf cells)).2.2.2.1 (selectGeom (keptCellsOf cells)).2.2.2.2.1
    maxCov (keptCellsOf cells) _ (fun c _ => ⟨rfl, rfl⟩)
    (kept_targets_nodup cells maxCov hv)
    (fun c hc => by
      have hcov := (hv.1 c (keptCellsOf_subset cells c hc)).1
      have hcpos : 0 < c.coverage := lt_of_lt_of_le (by norm_num [COVERAGE_THRESHOLD]) hcov
      have hx : 0 < (c.coverage / maxCov) * MAX_ALPHA_MULTIPLIER := by
        rw [MAX_ALPHA_MULTIPLIER, mul_one]
        exact div_pos hcpos hpos
      rw [clamp]
      exact lt_min (by norm_num) (lt_of_lt_of_le hx (le_max_right 0 _)))]
  simp

/-! ### The downsampler meets the validity contract -/

lemma cellSampleStats_le (imageData : ℕ → ℕ) (canvasWidth canvasHeight scale : ℕ)
    (alphaThreshold : ℚ) (gridX gridY : ℕ) :
    (cellSampleStats imageData canvasWidth canvasHeight scale
      alphaThreshold gridX gridY).1 ≤
    (cellSampleStats imageData canvasWidth canvasHeight scale
      alphaThreshold gridX gridY).2.1 := by
  rw [cellSampleStats]
  refine foldl_preserve (fun acc => acc.1 ≤ acc.2.1) _ (fun b sy hb => ?_)
    (List.range scale) (0, 0, 0, 0, 0) (le_refl 0)
  dsimp only
  split_ifs with hY
  · exact hb
  refine foldl_preserve (fun acc => acc.1 ≤ acc.2.1) _ (fun b2 sx hb2 => ?_)
    (List.range scale) b hb
  dsimp only
  split_ifs with hX hA
  · exact hb2
  · show b2.1 + 1 ≤ b2.2.1 + 1
    omega
  · show b2.1 ≤ b2.2.1 + 1
    omega

lemma downsample_valid_mem (imageData : ℕ → ℕ) (canvasWidth canvasHeight : ℕ) :
    ∀ c ∈ (downsampleCanvasCoverage imageData canvasWidth canvasHeight GRID_SIZE
      CANVAS_SCALE SAMPLE_ALPHA_THRESHOLD COVERAGE_THRESHOLD).1,
      COVERAGE_THRESHOLD ≤ c.coverage ∧ c.coverage ≤ 1 ∧
      c.coverage ≤ (downsampleCanvasCoverage imageData canvasWidth canvasHeight GRID_SIZE
        CANVAS_SCALE SAMPLE_ALPHA_THRESHOLD COVERAGE_THRESHOLD).2 ∧
      c.x < GRID_SIZE ∧ c.y < GRID_SIZE ∧ c.cellIndex = c.y * GRID_SIZE + c.x := by
  intro c hc
  have hmax : c.coverage ≤ (downsampleCanvasCoverage imageData canvasWidth canvasHeight
      GRID_SIZE CANVAS_SCALE SAMPLE_ALPHA_THRESHOLD COVERAGE_THRESHOLD).2 := by
    have h2 : (downsampleCanvasCoverage imageData canvasWidth canvasHeight GRID_SIZE
        CANVAS_SCALE SAMPLE_ALPHA_THRESHOLD COVERAGE_THRESHOLD).2 =
        (downsampleCanvasCoverage imageData canvasWidth canvasHeight GRID_SIZE
          CANVAS_SCALE SAMPLE_ALPHA_THRESHOLD COVERAGE_THRESHOLD).1.foldl
          (fun m c => max m c.coverage) 0 := rfl
    rw [h2]
    exact mem_le_foldl_max (fun c => c.coverage) _ 0 c hc
  rw [downsampleCanvasCoverage] at hc
  obtain ⟨gy, hgy, hin⟩ := List.mem_flatMap.mp hc
  obtain ⟨gx, hgx, heq⟩ := List.mem_filterMap.mp hin
  rw [List.mem_range] at hgy hgx
  dsimp only at heq
  by_cases hz : (cellSampleStats imageData canvasWidth canvasHeight CANVAS_SCALE
      SAMPLE_ALPHA_THRESHOLD gx gy).2.1 = 0
  · rw [if_pos hz] at heq
    exact absurd heq (by simp)
  rw [if_neg hz] at heq
  by_cases hlt : ((cellSampleStats imageData canvasWidth canvasHeight CANVAS_SCALE
      SAMPLE_ALPHA_THRESHOLD gx gy).1 : ℚ) /
      ((cellSampleStats imageData canvasWidth canvasHeight CANVAS_SCALE
        SAMPLE_ALPHA_THRESHOLD gx gy).2.1 : ℚ) < COVERAGE_THRESHOLD
  · rw [if_pos hlt] at heq
    exact absurd heq (by simp)
  rw [if_neg hlt] at heq
  have hceq := Option.some.inj heq
  have hcov : c.coverage = ((cellSampleStats imageData canvasWidth canvasHeight
      CANVAS_SCALE SAMPLE_ALPHA_THRESHOLD gx gy).1 : ℚ) /
      ((cellSampleStats imageData canvasWidth canvasHeight CANVAS_SCALE
        SAMPLE_ALPHA_THRESHOLD gx gy).2.1 : ℚ) := by rw [← hceq]
  have hx : c.x = gx := by rw [← hceq]
  have hy : c.y = gy := by rw [← hceq]
  have hidx : c.cellIndex = gy * GRID_SIZE + gx := by rw [← hceq]
  have hsamp : (0 : ℚ) < ((cellSampleStats imageData canvasWidth canvasHeight
      CANVAS_SCALE SAMPLE_ALPHA_THRESHOLD gx gy).2.1 : ℚ) :=
    Nat.cast_pos.mpr (Nat.pos_of_ne_zero hz)
  refine ⟨not_lt.mp hlt |>.trans_eq hcov.symm, ?_, hmax, ?_, ?_, ?_⟩
  · rw [hcov]
    rw [div_le_one hsamp]
    exact Nat.cast_le.mpr (cellSampleStats_le imageData canvasWidth canvasHeight
      CANVAS_SCALE SAMPLE_ALPHA_THRESHOLD gx gy)
  · rw [hx]
    exact hgx
  · rw [hy]
    exact hgy
  · rw [hidx, hx, hy]

lemma downsample_valid_nodup (imageData : ℕ → ℕ) (canvasWidth canvasHeight : ℕ) :
    ((downsampleCanvasCoverage imageData canvasWidth canvasHeight GRID_SIZE CANVAS_SCALE
      SAMPLE_ALPHA_THRESHOLD COVERAGE_THRESHOLD).1.map (fun c => c.cellIndex)).Nodup := by
  rw [downsampleCanvasCoverage, List.map_flatMap, List.nodup_flatMap]
  constructor
  · intro gy hgy
    rw [List.map_filterMap]
    refine List.Nodup.filterMap ?_ (List.nodup_range GRID_SIZE)
    intro a a' b hb hb'
    dsimp only at hb hb'
    have hba : b = gy * GRID_SIZE + a := by
      split at hb
      · simp at hb
      · split at hb
        · simp at hb
        · simp at hb
          omega
    have hba' : b = gy * GRID_SIZE + a' := by
      split at hb'
      · simp at hb'
      · split at hb'
        · simp at hb'
        · simp at hb'
          omega
    omega
  · refine List.Pairwise.imp ?_ (List.pairwise_lt_range GRID_SIZE)
    intro gy gy' hlt
    intro n hn hn'
    dsimp only at hn hn'
    rw [List.map_filterMap] at hn hn'
    obtain ⟨gx, hgx, hfx⟩ := List.mem_filterMap.mp hn
    obtain ⟨gx', hgx', hfx'⟩ := List.mem_filterMap.mp hn'
    rw [List.mem_range] at hgx hgx'
    have h1 : n = gy * GRID_SIZE + gx := by
      split at hfx
      · simp at hfx
      · split at hfx
        · simp at hfx
        · simp at hfx
          omega
    have h2 : n = gy' * GRID_SIZE + gx' := by
      split at hfx'
      · simp at hfx'
      · split at hfx'
        · simp at hfx'
        · simp at hfx'
          omega
    have hG : GRID_SIZE = 98 := by norm_num [GRID_SIZE]
    rw [hG] at h1 h2 hgx hgx'
    omega

lemma downsample_valid (imageData : ℕ → ℕ) (canvasWidth canvasHeight : ℕ) :
    downsampleValid
      (downsampleCanvasCoverage imageData canvasWidth canvasHeight GRID_SIZE CANVAS_SCALE
        SAMPLE_ALPHA_THRESHOLD COVERAGE_THRESHOLD).1
      (downsampleCanvasCoverage imageData canvasWidth canvasHeight GRID_SIZE CANVAS_SCALE
        SAMPLE_ALPHA_THRESHOLD COVERAGE_THRESHOLD).2 :=
  ⟨downsample_valid_mem imageData canvasWidth canvasHeight,
   downsample_valid_nodup imageData canvasWidth canvasHeight⟩

/-! ### The fallback stripe band -/

lemma fallback_stripe_min : Int.toNat ⌊(GRID_SIZE : ℚ) * (3/10)⌋ = 29 := by
  have h : (⌊(GRID_SIZE : ℚ) * (3/10)⌋ : ℤ) = 29 := by
    norm_num [GRID_SIZE, Int.floor_eq_iff]
  rw [h]
  rfl

lemma fallback_stripe_max : Int.toNat ⌈(GRID_SIZE : ℚ) * (7/10)⌉ = 69 := by
  have h : (⌈(GRID_SIZE : ℚ) * (7/10)⌉ : ℤ) = 69 := by
    rw [Int.ceil_eq_iff]
    norm_num [GRID_SIZE]
  rw [h]
  rfl

set_option maxRecDepth 4000 in
lemma createFallbackTextData_length :
    createFallbackTextData.cellIndices.length = 4018 := by
  have hce : createFallbackTextData.cellIndices =
      (List.range GRID_SIZE).flatMap (fun y =>
        if 29 ≤ y ∧ y ≤ 69 then
          (List.range GRID_SIZE).map (fun x => y * GRID_SIZE + x)
        else []) := by
    rw [createFallbackTextData]
    rw [fallback_stripe_min, fallback_stripe_max]
  rw [hce, List.length_flatMap]
  have hrow : List.map (List.length ∘ fun y =>
      if 29 ≤ y ∧ y ≤ 69 then (List.range GRID_SIZE).map (fun x => y * GRID_SIZE + x)
      else []) (List.range GRID_SIZE) =
      List.map (fun y => if 29 ≤ y ∧ y ≤ 69 then 98 else 0) (List.range GRID_SIZE) := by
    apply List.map_congr_left
    intro y hy
    by_cases h : 29 ≤ y ∧ y ≤ 69
    · simp [h, GRID_SIZE]
    · simp [h]
  rw [hrow]
  decide

lemma createTextDataCore_some (cells : List DownsampledCell) (mc : ℚ) :
    createTextDataCore (some (cells, mc)) =
      if cells.length = 0 ∨ mc ≤ 0 then createFallbackTextData
      else selectCells cells mc := rfl

/-- **C4.** Every execution of `createTextData` returns a non-empty `cellIndices`:
the fallback paths (missing 2D context / text / pixel APIs, modelled by
`sample = none`, or a downsample with no qualifying cell) produce the 4018-cell
stripe band, and the selection path keeps at least `min(minCells, cells.length) ≥ 1`
cells — so the fatal assertion `'text sampling produced empty mask'` is
unreachable and construction never fails due to an environment capability gap. -/
theorem createTextData_nonempty (sample : Option (List DownsampledCell × ℚ))
    (hv : ∀ cells maxCov, sample = some (cells, maxCov) → downsampleValid cells maxCov) :
    0 < (createTextDataCore sample).cellIndices.length := by
  cases sample with
  | none =>
    have h : createTextDataCore none = createFallbackTextData := rfl
    rw [h, createFallbackTextData_length]
    norm_num
  | some s =>
    obtain ⟨cells, maxCov⟩ := s
    have h : createTextDataCore (some (cells, maxCov)) =
        if cells.length = 0 ∨ maxCov ≤ 0 then createFallbackTextData
        else selectCells cells maxCov := rfl
    rw [h]
    by_cases hg : cells.length = 0 ∨ maxCov ≤ 0
    · rw [if_pos hg, createFallbackTextData_length]
      norm_num
    · rw [if_neg hg]
      push_neg at hg
      have hvv := hv cells maxCov rfl
      rw [selectCells_cellIndices_length cells maxCov hvv hg.2]
      have hlow := keptCellsOf_length_lower cells (fun c hc => (hvv.1 c hc).1)
      have h192 : minCells = 192 := minCells_eq
      have hne := hg.1
      omega

/-- Witness for C4 at the environment-fallback input. -/
theorem createTextData_nonempty_witness :
    0 < (createTextDataCore none).cellIndices.length :=
  createTextData_nonempty none (fun _ _ h => nomatch h)

/-- **C3 (amended).** On the non-fallback path (a valid downsample with at least
one qualifying cell and positive maximum coverage) the returned `cellIndices`
is non-empty and has exactly one entry per kept cell; its length is at least
`min(minCells, cells.length)` and at most `cells.length`, and when no two
qualifying cells tie on coverage it is also at most `maxCells`.  The claimed
unconditional bounds `minCells ≤ length ≤ maxCells` do not hold (see the
counterexample): fewer than `minCells` qualifying cells yield fewer entries,
and coverage ties at the cutoff rank push the count above `maxCells`. -/
theorem createTextData_cell_count (cells : List DownsampledCell) (maxCoverage : ℚ)
    (hv : downsampleValid cells maxCoverage) (hpos : 0 < maxCoverage)
    (hne : cells.length ≠ 0) :
    0 < (createTextDataCore (some (cells, maxCoverage))).cellIndices.length ∧
    (createTextDataCore (some (cells, maxCoverage))).cellIndices.length =
      (keptCellsOf cells).length ∧
    min minCells cells.length ≤
      (createTextDataCore (some (cells, maxCoverage))).cellIndices.length ∧
    (createTextDataCore (some (cells, maxCoverage))).cellIndices.length ≤
      cells.length ∧
    ((cells.map (fun c => c.coverage)).Nodup →
      (createTextDataCore (some (cells, maxCoverage))).cellIndices.length ≤ maxCells) := by
  have hsel : createTextDataCore (some (cells, maxCoverage)) =
      selectCells cells maxCoverage := by
    show (if cells.length = 0 ∨ maxCoverage ≤ 0 then createFallbackTextData
      else selectCells cells maxCoverage) = selectCells cells maxCoverage
    rw [if_neg]
    push_neg
    exact ⟨hne, not_le.mp (fun h => absurd hpos (not_lt.mpr h))⟩
  rw [hsel, selectCells_cellIndices_length cells maxCoverage hv hpos]
  have hlow := keptCellsOf_length_lower cells (fun c hc => (hv.1 c hc).1)
  have h192 : minCells = 192 := minCells_eq
  exact ⟨by omega, rfl, hlow, keptCellsOf_length_le cells,
    fun hnd => keptCellsOf_length_noties cells hnd⟩

/-- Witness for C3 at a one-cell valid sample. -/
theorem createTextData_cell_count_witness :
    downsampleValid [(⟨0, 1, 0, 0, (0, 0, 0)⟩ : DownsampledCell)] 1 ∧
    0 < (createTextDataCore
      (some ([(⟨0, 1, 0, 0, (0, 0, 0)⟩ : DownsampledCell)], 1))).cellIndices.length := by
  have hv : downsampleValid [(⟨0, 1, 0, 0, (0, 0, 0)⟩ : DownsampledCell)] 1 := by
    constructor
    · intro c hc
      rw [List.mem_singleton] at hc
      subst hc
      refine ⟨?_, ?_, ?_, ?_, ?_, ?_⟩ <;> norm_num [COVERAGE_THRESHOLD, GRID_SIZE]
    · simp
  exact ⟨hv, (createTextData_cell_count _ 1 hv (by norm_num) (by simp)).1⟩

/-- **C3 (counterexample to the claimed bounds).**  On non-fallback executions
both claimed bounds fail.  A valid 10-cell sample (all coverage `1`) yields
`cellIndices.length = 10 < MIN_CELLS_RATIO·N²`: with fewer qualifying cells than
`minCells` the cutoff falls at the last cell and everything is kept, nothing
more.  A valid 1921-cell sample with all coverages tied at `1` yields
`cellIndices.length = 1921 > MAX_CELLS_RATIO·N²`: the cutoff equals the tied
coverage and the `>= cutoff` filter keeps every tied cell, overshooting
`maxCells = 1920`. -/
theorem createTextData_claim_bounds_cex :
    (∃ (cells : List DownsampledCell) (maxCov : ℚ),
      downsampleValid cells maxCov ∧ 0 < maxCov ∧ cells.length ≠ 0 ∧
      ((createTextDataCore (some (cells, maxCov))).cellIndices.length : ℚ) <
        MIN_CELLS_FRAC * ((GRID_SIZE : ℚ) * (GRID_SIZE : ℚ))) ∧
    (∃ (cells : List DownsampledCell) (maxCov : ℚ),
      downsampleValid cells maxCov ∧ 0 < maxCov ∧ cells.length ≠ 0 ∧
      MAX_CELLS_FRAC * ((GRID_SIZE : ℚ) * (GRID_SIZE : ℚ)) <
        ((createTextDataCore (some (cells, maxCov))).cellIndices.length : ℚ)) := by
  have hG : GRID_SIZE = 98 := by norm_num [GRID_SIZE]
  constructor
  · refine ⟨(List.range 10).map
      (fun k => (⟨k, 1, k, 0, (0, 0, 0)⟩ : DownsampledCell)), 1, ?_, one_pos, by simp, ?_⟩
    · constructor
      · intro c hc
        obtain ⟨k, hk, hck⟩ := List.mem_map.mp hc
        rw [List.mem_range] at hk
        subst hck
        refine ⟨by norm_num [COVERAGE_THRESHOLD], by norm_num, by norm_num, ?_, ?_, ?_⟩
        · show k < GRID_SIZE
          omega
        · show 0 < GRID_SIZE
          omega
        · show k = 0 * GRID_SIZE + k
          omega
      · have hmapeq : (((List.range 10).map
            (fun k => (⟨k, 1, k, 0, (0, 0, 0)⟩ : DownsampledCell))).map
            (fun c => c.cellIndex)) = List.range 10 := by
          rw [List.map_map]
          exact List.map_id _
        rw [hmapeq]
        exact List.nodup_range 10
    · have hvA : downsampleValid ((List.range 10).map
          (fun k => (⟨k, 1, k, 0, (0, 0, 0)⟩ : DownsampledCell))) 1 := by
        constructor
        · intro c hc
          obtain ⟨k, hk, hck⟩ := List.mem_map.mp hc
          rw [List.mem_range] at hk
          subst hck
          refine ⟨by norm_num [COVERAGE_THRESHOLD], by norm_num, by norm_num, ?_, ?_, ?_⟩
          · show k < GRID_SIZE
            omega
          · show 0 < GRID_SIZE
            omega
          · show k = 0 * GRID_SIZE + k
            omega
        · have hmapeq : (((List.range 10).map
              (fun k => (⟨k, 1, k, 0, (0, 0, 0)⟩ : DownsampledCell))).map
              (fun c => c.cellIndex)) = List.range 10 := by
            rw [List.map_map]
            exact List.map_id _
          rw [hmapeq]
          exact List.nodup_range 10
      have hguard : ¬(((List.range 10).map
          (fun k => (⟨k, 1, k, 0, (0, 0, 0)⟩ : DownsampledCell))).length = 0 ∨
          (1 : ℚ) ≤ 0) := by
        push_neg
        exact ⟨by simp, by norm_num⟩
      have hkept : (keptCellsOf ((List.range 10).map
          (fun k => (⟨k, 1, k, 0, (0, 0, 0)⟩ : DownsampledCell)))).length = 10 := by
        rw [keptCellsOf_const_length _ 1 (by norm_num [COVERAGE_THRESHOLD])
          (fun c hc => by
            obtain ⟨k, hk, hck⟩ := List.mem_map.mp hc
            rw [← hck])
          (by simp)]
        simp
      rw [createTextDataCore_some, if_neg hguard,
        selectCells_cellIndices_length _ 1 hvA one_pos, hkept, hG]
      norm_num [MIN_CELLS_FRAC]
  · refine ⟨(List.range 1921).map
      (fun k => (⟨k, 1, k % 98, k / 98, (0, 0, 0)⟩ : DownsampledCell)), 1, ?_, one_pos,
      by simp, ?_⟩
    · constructor
      · intro c hc
        obtain ⟨k, hk, hck⟩ := List.mem_map.mp hc
        rw [List.mem_range] at hk
        subst hck
        refine ⟨by norm_num [COVERAGE_THRESHOLD], by norm_num, by norm_num, ?_, ?_, ?_⟩
        · show k % 98 < GRID_SIZE
          omega
        · show k / 98 < GRID_SIZE
          omega
        · show k = (k / 98) * GRID_SIZE + k % 98
          rw [hG]
          omega
      · have hmapeq : (((List.range 1921).map
            (fun k => (⟨k, 1, k % 98, k / 98, (0, 0, 0)⟩ : DownsampledCell))).map
            (fun c => c.cellIndex)) = List.range 1921 := by
          rw [List.map_map]
          exact List.map_id _
        rw [hmapeq]
        exact List.nodup_range 1921
    · have hvB : downsampleValid ((List.range 1921).map
          (fun k => (⟨k, 1, k % 98, k / 98, (0, 0, 0)⟩ : DownsampledCell))) 1 := by
        constructor
        · intro c hc
          obtain ⟨k, hk, hck⟩ := List.mem_map.mp hc
          rw [List.mem_range] at hk
          subst hck
          refine ⟨by norm_num [COVERAGE_THRESHOLD], by norm_num, by norm_num, ?_, ?_, ?_⟩
          · show k % 98 < GRID_SIZE
            omega
          · show k / 98 < GRID_SIZE
            omega
          · show k = (k / 98) * GRID_SIZE + k % 98
            rw [hG]
            omega
        · have hmapeq : (((List.range 1921).map
              (fun k => (⟨k, 1, k % 98, k / 98, (0, 0, 0)⟩ : DownsampledCell))).map
              (fun c => c.cellIndex)) = List.range 1921 := by
            rw [List.map_map]
            exact List.map_id _
          rw [hmapeq]
          exact List.nodup_range 1921
      have hguard : ¬(((List.range 1921).map
          (fun k => (⟨k, 1, k % 98, k / 98, (0, 0, 0)⟩ : DownsampledCell))).length = 0 ∨
          (1 : ℚ) ≤ 0) := by
        push_neg
        exact ⟨by simp, by norm_num⟩
      have hkept : (keptCellsOf ((List.range 1921).map
          (fun k => (⟨k, 1, k % 98, k / 98, (0, 0, 0)⟩ : DownsampledCell)))).length = 1921 := by
        rw [keptCellsOf_const_length _ 1 (by norm_num [COVERAGE_THRESHOLD])
          (fun c hc => by
            obtain ⟨k, hk, hck⟩ := List.mem_map.mp hc
            rw [← hck])
          (by simp)]
        simp
      rw [createTextDataCore_some, if_neg hguard,
        selectCells_cellIndices_length _ 1 hvB one_pos, hkept, hG]
      norm_num [MAX_CELLS_FRAC]

end PixelGrid
